import Mathlib

/-!
Verification of the instance-store core of the kay actor-system runtime
(src/class/instance_store/mod.rs).

The store orchestrates three components:
* a slot map from instance numbers to physical locations (declared as the
  module slot_map in the source tree but its file is not part of the given
  sources; modelled here from the specification, section 4.1),
* a chunked multi-arena of bins holding densely packed records (the external
  chunky crate; modelled here from the specification, sections 4.2 and 6),
* the orchestration layer itself (add, swap_remove, remove, resize,
  receive_instance, receive_broadcast), translated directly from the source.

Records are modelled as values of a structure carrying exactly the data the
state-descriptor v-table exposes to the store: a self-reported identity,
a byte footprint, a self-containment flag, and an opaque payload.
Raw pointers of the source become functional reads and writes at a
SlotIndices location.  Panics (the two .expect calls) become Option.none.
-/

namespace Kay

/-- Composite identity of one instance: type tag, instance number, machine,
and generation version (RawID in src/id.rs). -/
structure RawID where
  typeId : Nat
  instanceId : Nat
  machine : Nat
  version : Nat
deriving DecidableEq, Repr

/-- Continuation verdict returned by a message handler (src/messaging.rs). -/
inductive Fate where
  | Live : Fate
  | Die : Fate
deriving DecidableEq, Repr

/-- One live record as the state-descriptor v-table lets the store see it:
get_raw_id reads ident, total_size_bytes reads size, is_still_compact reads
the self-containment flag; payload stands for the remaining opaque bytes. -/
structure Actor where
  ident : RawID
  size : Nat
  isStillCompact : Bool
  payload : Nat
deriving DecidableEq, Repr

instance : Inhabited Actor := ⟨⟨⟨0, 0, 0, 0⟩, 0, true, 0⟩⟩

/-- Physical location of a record: bin index and slot within the bin. -/
structure SlotIndices where
  bin : Nat
  slot : Nat
deriving DecidableEq, Repr

/-- One slot-table entry: current location (none when free) and the current
generation version of its instance number. -/
structure SlotEntry where
  loc : Option SlotIndices
  version : Nat
deriving DecidableEq, Repr

instance : Inhabited SlotEntry := ⟨⟨none, 0⟩⟩

/-- Modelled from the spec (section 4.1): the slot map of the missing
src/class/instance_store/slot_map.rs, a generational map from instance
number to location with a free list for number reuse. -/
structure SlotMap where
  entries : List SlotEntry
  freeList : List Nat
deriving DecidableEq, Repr

namespace SlotMap

/-- Modelled from the spec: allocate_id pops a recycled number from the free
list (its version already bumped at free time) or mints a fresh number with
version 0.  Returns ((instance_number, version), updated map). -/
def allocate_id (m : SlotMap) : (Nat × Nat) × SlotMap :=
  match m.freeList with
  | id :: rest => ((id, (m.entries.getD id default).version), { m with freeList := rest })
  | [] => ((m.entries.length, 0), { m with entries := m.entries ++ [⟨none, 0⟩] })

/-- Modelled from the spec: (re)register the physical location for an
instance number; the stored version is untouched. -/
def associate (m : SlotMap) (id : Nat) (loc : SlotIndices) : SlotMap :=
  { m with entries := m.entries.set id { m.entries.getD id default with loc := some loc } }

/-- Modelled from the spec: defensive lookup for externally supplied
handles; nothing when the entry is free or the version does not match. -/
def indices_of (m : SlotMap) (id : Nat) (version : Nat) : Option SlotIndices :=
  match m.entries[id]? with
  | some e => if e.version = version then e.loc else none
  | none => none

/-- Modelled from the spec: trusted lookup without a version check. -/
def indices_of_no_version_check (m : SlotMap) (id : Nat) : Option SlotIndices :=
  m.entries[id]?.bind (fun e => e.loc)

/-- Modelled from the spec: free marks the entry free, bumps its stored
version, and pushes the number onto the free list.  The version argument of
the source call site (the removing handle's version) is kept in the
signature; the bump applies to the entry's stored version per the spec. -/
def free (m : SlotMap) (id : Nat) (_version : Nat) : SlotMap :=
  { entries := m.entries.set id ⟨none, (m.entries.getD id default).version + 1⟩,
    freeList := id :: m.freeList }

end SlotMap

/-- Modelled from the spec (sections 4.2 and 6): the external chunky
multi-arena, a list of bins each holding densely packed records, plus the
index of the most recently used bin and the fixed bin byte capacity. -/
structure MultiArena where
  bins : List (List Actor)
  mru : Nat
  chunkSize : Nat
deriving DecidableEq, Repr

namespace MultiArena

/-- Contents of bin b (empty for a bin index that was never opened). -/
def binAt (a : MultiArena) (b : Nat) : List Actor := a.bins.getD b []

/-- Occupied byte length of a bin: records are densely packed. -/
def usedBytes (l : List Actor) : Nat := (l.map Actor.size).sum

/-- Modelled from the spec: push appends a record to the most recently used
bin when the record still fits in its fixed capacity, otherwise opens a new
bin; returns the record's location. -/
def push (a : MultiArena) (r : Actor) : MultiArena × SlotIndices :=
  if a.mru < a.bins.length ∧ usedBytes (a.binAt a.mru) + r.size ≤ a.chunkSize then
    ({ a with bins := a.bins.set a.mru (a.binAt a.mru ++ [r]) }, ⟨a.mru, (a.binAt a.mru).length⟩)
  else
    ({ a with bins := a.bins ++ [[r]], mru := a.bins.length }, ⟨a.bins.length, 0⟩)

/-- Modelled from the spec: swap-removal inside one bin as a pure list
operation; the bin's last record is copied over the removed one (unless the
removed record is the last, in which case nothing is copied) and the bin
shrinks by one; also returns the record that was copied in, if any. -/
def swapRemoveList (l : List Actor) (s : Nat) : List Actor × Option Actor :=
  if s + 1 = l.length then (l.dropLast, none)
  else if s < l.length then
    ((l.set s (l.getLastD default)).dropLast, some (l.getLastD default))
  else (l, none)

/-- Modelled from the spec: swap_remove_within_bin applied at a location. -/
def swap_remove_within_bin (a : MultiArena) (i : SlotIndices) : MultiArena × Option Actor :=
  let p := swapRemoveList (a.binAt i.bin) i.slot
  ({ a with bins := a.bins.set i.bin p.1 }, p.2)

/-- Read the record at a location (default junk when out of range, standing
for the undefined behaviour of a wild pointer read). -/
def atIdx (a : MultiArena) (i : SlotIndices) : Actor := (a.binAt i.bin).getD i.slot default

/-- In-place overwrite of the record at a location: this models the
handler's mutation of a record through the pointer the store hands it. -/
def setAt (a : MultiArena) (i : SlotIndices) (r : Actor) : MultiArena :=
  { a with bins := a.bins.set i.bin ((a.binAt i.bin).set i.slot r) }

/-- Current occupied record count of bin b. -/
def bin_len (a : MultiArena) (b : Nat) : Nat := (a.binAt b).length

/-- Modelled from the spec: point-in-time listing of the populated bins and
their occupied counts, used to bound the broadcast iteration. -/
def populated_bin_indices_and_lens (a : MultiArena) : List (Nat × Nat) :=
  (List.range a.bins.length).filterMap
    (fun b => if a.bin_len b ≠ 0 then some (b, a.bin_len b) else none)

end MultiArena

/-- Fixed bin capacity, 16 MiB (CHUNK_SIZE in the source). -/
def CHUNK_SIZE : Nat := 1024 * 1024 * 16

/-- The instance store: arena of record bytes, slot map, and the durable
instance counter (struct InstanceStore in the source). -/
structure InstanceStore where
  instances : MultiArena
  slot_map : SlotMap
  n_instances : Nat
deriving DecidableEq, Repr

/-- Relocation of a record behind a pointer (compact_behind of the state
v-table, spec section 4.3): the copy is fully self-contained. -/
def compact_behind (r : Actor) : Actor := { r with isStillCompact := true }

/-- What a handler invocation produces, as far as the store can observe it:
the record as mutated in place, the continuation verdict, and the instances
the handler itself created during the invocation (spec section 5 allows a
handler to add instances of the same type reentrantly). -/
structure HandlerResult where
  updated : Actor
  fate : Fate
  created : List Actor

/-- A message handler specialised to one packet and world, as the store
invokes it: a function of the record it is handed. -/
def Handler : Type := Actor → HandlerResult

namespace InstanceStore

/-- InstanceStore::new: fresh store with an empty arena, an empty slot map
and a zero instance counter; typical_size only hints bin layout inside
chunky and has no observable effect in the model. -/
def new (_typical_size : Nat) : InstanceStore :=
  { instances := { bins := [], mru := 0, chunkSize := CHUNK_SIZE },
    slot_map := { entries := [], freeList := [] },
    n_instances := 0 }

/-- at_index_mut: read the record at a physical location. -/
def at_index_mut (s : InstanceStore) (index : SlotIndices) : Actor :=
  s.instances.atIdx index

/-- at_mut: resolve an externally supplied (id, version) pair to a location
with the defensive version check. -/
def at_mut (s : InstanceStore) (id : Nat) (version : Nat) : Option SlotIndices :=
  s.slot_map.indices_of id version

/-- allocate_id: mint a fresh (instance number, version) pair and stamp it
into a handle carrying the template's type and machine fields. -/
def allocate_id (s : InstanceStore) (base_id : RawID) : RawID × InstanceStore :=
  let p := s.slot_map.allocate_id
  (⟨base_id.typeId, p.1.1, base_id.machine, p.1.2⟩, { s with slot_map := p.2 })

/-- add: read identity and footprint from the staged record, reserve a
same-size record in the arena, register the id-to-location mapping, then
relocate the live copy into place.  Note: add itself does not touch
n_instances (resize reuses add and must not change the counter). -/
def add (s : InstanceStore) (initial_state : Actor) : InstanceStore :=
  let id := initial_state.ident
  let p := s.instances.push (compact_behind initial_state)
  { s with instances := p.1, slot_map := s.slot_map.associate id.instanceId p.2 }

/-- swap_remove: remove the record at a location by in-bin swap-compaction;
when a record was moved into the hole, immediately re-associate its
slot-table entry with the new location. -/
def swap_remove (s : InstanceStore) (indices : SlotIndices) : InstanceStore :=
  match s.instances.swap_remove_within_bin indices with
  | (a, some swapped_actor) =>
      { s with instances := a,
               slot_map := s.slot_map.associate swapped_actor.ident.instanceId indices }
  | (a, none) => { s with instances := a }

/-- remove_at_index: drop the record's external resources (a no-op in the
model), swap-remove it, free its slot entry, decrement the counter. -/
def remove_at_index (s : InstanceStore) (i : SlotIndices) (id : RawID) : InstanceStore :=
  let s1 := s.swap_remove i
  { s1 with slot_map := s1.slot_map.free id.instanceId id.version,
            n_instances := s1.n_instances - 1 }

/-- remove: trusted resolution of the handle's instance number (no version
check); the source panics via .expect when it does not resolve, modelled as
none. -/
def remove (s : InstanceStore) (id : RawID) : Option InstanceStore :=
  (s.slot_map.indices_of_no_version_check id.instanceId).map
    (fun i => s.remove_at_index i id)

/-- resize_at_index: re-add the record at its now-current footprint (the
copy lands at a fresh location) and swap-remove the old location. -/
def resize_at_index (s : InstanceStore) (old_i : SlotIndices) : InstanceStore :=
  let old_actor := s.at_index_mut old_i
  (s.add old_actor).swap_remove old_i

/-- resize: trusted resolution of the instance number (no version check);
the source panics via .expect when it does not resolve, modelled as none. -/
def resize (s : InstanceStore) (id : Nat) : Option InstanceStore :=
  (s.slot_map.indices_of_no_version_check id).map s.resize_at_index

/-- Modelled from the spec (section 4.4): a top-level add as the class layer
performs it — allocate a fresh identity, stamp it into the staged record,
add it, and increment the durable instance counter.  The counter increment
is not inside instance_store/mod.rs; the spec keeps the counter in lockstep
with the occupied slot entries, so the enclosing layer increments it after
each top-level add. -/
def spawn (s : InstanceStore) (template : Actor) : InstanceStore :=
  let p := s.allocate_id template.ident
  let staged : Actor := { template with ident := p.1 }
  let s2 := p.2.add staged
  { s2 with n_instances := s2.n_instances + 1 }

/-- receive_instance (deliver_to): resolve with version check; on failure
log and return (the Bool records whether the handler was invoked); on
success run the handler, then on Live with a no-longer-compact record
resize, on Die remove.  Instances the handler created reentrantly are
spawned before the verdict is processed. -/
def receive_instance (s : InstanceStore) (recipient_id : RawID) (handler : Handler) :
    Option (InstanceStore × Bool) :=
  match s.at_mut recipient_id.instanceId recipient_id.version with
  | some index =>
      let res := handler (s.at_index_mut index)
      let s1 := { s with instances := s.instances.setAt index res.updated }
      let s2 := res.created.foldl spawn s1
      match res.fate with
      | Fate.Live =>
          if res.updated.isStillCompact then some (s2, true)
          else (s2.resize recipient_id.instanceId).map (fun s3 => (s3, true))
      | Fate.Die => (s2.remove recipient_id).map (fun s3 => (s3, true))
  | none => some (s, false)

end InstanceStore

/-- One handler invocation as the broadcast records it: which bin and slot
was read, and the record (pre-mutation) the handler was handed. -/
structure Visit where
  bin : Nat
  slot : Nat
  actor : Actor
deriving DecidableEq, Repr

/-- Loop state of the per-bin broadcast traversal: current store, the slot
cursor, index_after_last_recipient, and the accumulated visit log. -/
structure BinPassState where
  store : InstanceStore
  slot : Nat
  index_after_last_recipient : Nat
  log : List Visit
deriving Repr

/-- One iteration of the inner broadcast loop of receive_broadcast: read the
record at (bin_index, slot), invoke the handler (its in-place mutation and
reentrant creations applied first), then process the verdict; after a
resize or removal, a bin length now below index_after_last_recipient means
an original not-yet-visited receiver was swapped in, so decrement it and
repeat the same slot, otherwise advance the slot. -/
def broadcast_step (handler : Handler) (bin_index : Nat) (st : BinPassState) : BinPassState :=
  let index : SlotIndices := ⟨bin_index, st.slot⟩
  let actor := st.store.at_index_mut index
  let res := handler actor
  let s1 := { st.store with instances := st.store.instances.setAt index res.updated }
  let s2 := res.created.foldl InstanceStore.spawn s1
  let log' := st.log ++ [⟨bin_index, st.slot, actor⟩]
  match res.fate with
  | Fate.Live =>
      if res.updated.isStillCompact then
        { store := s2, slot := st.slot + 1,
          index_after_last_recipient := st.index_after_last_recipient, log := log' }
      else
        let s3 := s2.resize_at_index index
        if s3.instances.bin_len bin_index < st.index_after_last_recipient then
          { store := s3, slot := st.slot,
            index_after_last_recipient := st.index_after_last_recipient - 1, log := log' }
        else
          { store := s3, slot := st.slot + 1,
            index_after_last_recipient := st.index_after_last_recipient, log := log' }
  | Fate.Die =>
      let s3 := s2.remove_at_index index res.updated.ident
      if s3.instances.bin_len bin_index < st.index_after_last_recipient then
        { store := s3, slot := st.slot,
          index_after_last_recipient := st.index_after_last_recipient - 1, log := log' }
      else
        { store := s3, slot := st.slot + 1,
          index_after_last_recipient := st.index_after_last_recipient, log := log' }

/-- The inner loop of receive_broadcast: exactly recipients_todo iterations
of broadcast_step, regardless of what the steps do to the bin. -/
def run_bin (handler : Handler) (bin_index : Nat) (st : BinPassState) : Nat → BinPassState
  | 0 => st
  | n + 1 => run_bin handler bin_index (broadcast_step handler bin_index st) n

/-- receive_broadcast (deliver_broadcast): snapshot the populated bins and
their occupied counts, then traverse each snapshotted bin with the inner
loop.  Also returns the full visit log of handler invocations. -/
def InstanceStore.receive_broadcast (s : InstanceStore) (handler : Handler) :
    InstanceStore × List Visit :=
  let bin_indices_recipients_todo := s.instances.populated_bin_indices_and_lens
  bin_indices_recipients_todo.foldl
    (fun acc p =>
      let st := run_bin handler p.1 ⟨acc.1, 0, p.2, acc.2⟩ p.2
      (st.store, st.log))
    (s, [])

/-- Number of occupied slot entries: the live object count. -/
def liveCount (s : InstanceStore) : Nat :=
  s.slot_map.entries.countP (fun e => e.loc.isSome)

/-- Total number of records held in the arena. -/
def recordCount (s : InstanceStore) : Nat :=
  (s.instances.bins.map List.length).sum

/-- The public operations of the store, for stating properties over
operation sequences: a top-level add of a new instance, a resize of an
existing one, a removal of an existing one. -/
inductive StoreOp where
  | add : Actor → StoreOp
  | resize : Nat → StoreOp
  | remove : RawID → StoreOp

/-- Execute one public operation; none models the source's fatal panic when
resize or remove is invoked for an instance number with no current entry. -/
def execOp (s : InstanceStore) : StoreOp → Option InstanceStore
  | StoreOp.add t => some (s.spawn t)
  | StoreOp.resize id => s.resize id
  | StoreOp.remove id => s.remove id

/-- Execute a sequence of public operations, stopping at the first panic. -/
def execOps (s : InstanceStore) : List StoreOp → Option InstanceStore
  | [] => some s
  | op :: rest => (execOp s op).bind (fun s1 => execOps s1 rest)

/-- The store as receive_instance leaves it right after the handler ran but
before the verdict is processed: the record overwritten in place and the
handler's reentrant creations spawned. -/
def afterHandlerStore (s : InstanceStore) (index : SlotIndices) (handler : Handler) :
    InstanceStore :=
  let res := handler (s.at_index_mut index)
  res.created.foldl InstanceStore.spawn
    { s with instances := s.instances.setAt index res.updated }

/-- Multiset of the records at positions a, a+1, ..., b-1 of a bin. -/
def sliceM (l : List Actor) (a b : Nat) : Multiset Actor :=
  (((l.drop a).take (b - a) : List Actor) : Multiset Actor)

/-- The visit log an all-alive-and-self-contained broadcast should produce:
for each snapshotted bin, its original records in increasing slot order. -/
def expectedVisits (s : InstanceStore) : List Visit :=
  (s.instances.populated_bin_indices_and_lens.map
    (fun p => (List.range p.2).map
      (fun j => Visit.mk p.1 j ((s.instances.binAt p.1).getD j default)))).flatten

/-- Invariant 1 of the spec: every occupied slot entry's location points to
a record (at a valid position) whose self-reported identity matches that
entry's instance number. -/
def locationsMatch (s : InstanceStore) : Prop :=
  ∀ id e loc, s.slot_map.entries[id]? = some e → e.loc = some loc →
    loc.slot < s.instances.bin_len loc.bin ∧
    ((s.instances.binAt loc.bin).getD loc.slot default).ident.instanceId = id

/-- Converse of invariant 1: every record held in a bin points back, via
its self-reported instance number, to an occupied slot entry holding
exactly the record's own position. -/
def pointsBack (s : InstanceStore) : Prop :=
  ∀ b sl, sl < s.instances.bin_len b →
    s.slot_map.indices_of_no_version_check
      (((s.instances.binAt b).getD sl default).ident.instanceId) = some ⟨b, sl⟩

/-- Representation invariant of the store: occupied entries point to
matching records, records point back to their own occupied entries, free
list numbers are free and unrepeated, and the instance counter is in
lockstep with both the occupied entries and the arena records. -/
structure StoreWF (s : InstanceStore) : Prop where
  forward : locationsMatch s
  backward : pointsBack s
  free_wf : ∀ id ∈ s.slot_map.freeList,
    ∃ e, s.slot_map.entries[id]? = some e ∧ e.loc = none
  free_nodup : s.slot_map.freeList.Nodup
  count_live : s.n_instances = liveCount s
  count_rec : liveCount s = recordCount s

/-- Instance A of the concrete broadcast scenario of the spec (section 8). -/
def actorA : Actor := ⟨⟨7, 1, 0, 0⟩, 8, true, 100⟩

/-- Instance B of the concrete broadcast scenario. -/
def actorB : Actor := ⟨⟨7, 2, 0, 0⟩, 8, true, 200⟩

/-- Instance C of the concrete broadcast scenario. -/
def actorC : Actor := ⟨⟨7, 3, 0, 0⟩, 8, true, 300⟩

/-- A store whose single bin holds exactly A, B, C in slots 0, 1, 2, with
instance numbers 1, 2, 3 registered in the slot map. -/
def storeABC : InstanceStore :=
  { instances := { bins := [[actorA, actorB, actorC]], mru := 0, chunkSize := CHUNK_SIZE },
    slot_map := { entries := [⟨none, 0⟩, ⟨some ⟨0, 0⟩, 0⟩, ⟨some ⟨0, 1⟩, 0⟩, ⟨some ⟨0, 2⟩, 0⟩],
                  freeList := [] },
    n_instances := 3 }

/-- The scenario handler: reports dead for A (instance number 1), alive and
still self-contained for everything else. -/
def handlerC3 : Handler := fun r =>
  if r.ident.instanceId = 1 then ⟨r, Fate.Die, []⟩ else ⟨r, Fate.Live, []⟩

/-- A handler that always reports alive and keeps its record
self-contained, changing and creating nothing. -/
def handlerC4 : Handler := fun r =>
  ⟨{ r with isStillCompact := true }, Fate.Live, []⟩

/-- The operation sequence used to witness C1 at a concrete input:
two adds, a resize of the first instance, then its removal. -/
def opsC1 : List StoreOp :=
  [StoreOp.add actorA, StoreOp.add actorB, StoreOp.resize 0,
   StoreOp.remove ⟨7, 0, 0, 0⟩]

/-- The store opsC1 produces from a fresh store. -/
def storeC1 : InstanceStore :=
  { instances := { bins := [[⟨⟨7, 1, 0, 0⟩, 8, true, 200⟩]], mru := 0,
                   chunkSize := 16777216 },
    slot_map := { entries := [⟨none, 1⟩, ⟨some ⟨0, 0⟩, 0⟩], freeList := [0] },
    n_instances := 1 }

/-- The operation sequence used to witness C8: two adds and a removal of
the first instance, which swap-moves the second record. -/
def opsC8 : List StoreOp :=
  [StoreOp.add actorA, StoreOp.add actorB, StoreOp.remove ⟨7, 0, 0, 0⟩]

/-- The store opsC8 produces from a fresh store. -/
def storeC8 : InstanceStore :=
  { instances := { bins := [[⟨⟨7, 1, 0, 0⟩, 8, true, 200⟩]], mru := 0,
                   chunkSize := 16777216 },
    slot_map := { entries := [⟨none, 1⟩, ⟨some ⟨0, 0⟩, 0⟩], freeList := [0] },
    n_instances := 1 }

/-! ### Small lemmas about the slot map -/

lemma SlotMap.length_associate (m : SlotMap) (id : Nat) (loc : SlotIndices) :
    (m.associate id loc).entries.length = m.entries.length := by
  simp [SlotMap.associate]

lemma SlotMap.length_free (m : SlotMap) (id v : Nat) :
    (m.free id v).entries.length = m.entries.length := by
  simp [SlotMap.free]

lemma SlotMap.associate_getElem?_ne (m : SlotMap) (id : Nat) (loc : SlotIndices)
    (j : Nat) (h : j ≠ id) : (m.associate id loc).entries[j]? = m.entries[j]? := by
  simp [SlotMap.associate, List.getElem?_set_ne (Ne.symm h)]

lemma SlotMap.associate_getElem?_self (m : SlotMap) (id : Nat) (loc : SlotIndices)
    (h : id < m.entries.length) :
    (m.associate id loc).entries[id]? =
      some ⟨some loc, (m.entries.getD id default).version⟩ := by
  simp [SlotMap.associate, List.getElem?_set_self h]

lemma SlotMap.free_getElem?_ne (m : SlotMap) (id v : Nat) (j : Nat) (h : j ≠ id) :
    (m.free id v).entries[j]? = m.entries[j]? := by
  simp [SlotMap.free, List.getElem?_set_ne (Ne.symm h)]

lemma SlotMap.free_getElem?_self (m : SlotMap) (id v : Nat) (h : id < m.entries.length) :
    (m.free id v).entries[id]? = some ⟨none, (m.entries.getD id default).version + 1⟩ := by
  simp [SlotMap.free, List.getElem?_set_self h]

lemma SlotMap.associate_version (m : SlotMap) (id : Nat) (loc : SlotIndices) (j : Nat) :
    ((m.associate id loc).entries.getD j default).version =
      (m.entries.getD j default).version := by
  rcases eq_or_ne j id with rfl | h
  · by_cases hlt : j < m.entries.length
    · simp [List.getD_eq_getElem?_getD, SlotMap.associate_getElem?_self m j loc hlt]
    · have hge : m.entries.length ≤ j := Nat.le_of_not_lt hlt
      simp [SlotMap.associate, List.set_eq_of_length_le hge]
  · simp [List.getD_eq_getElem?_getD, SlotMap.associate_getElem?_ne m id loc j h]

/-! ### Claim C3: the concrete dead-A scenario -/

/-- C3: with a bin holding exactly A, B, C in slots 0, 1, 2 and a handler
reporting dead for A and alive-and-self-contained for B and C, the
broadcast visits A at slot 0, then C at slot 0 (swapped in), then B at
slot 1; the final bin is [C, B], each of A, B, C was visited exactly once,
and the instance count decreased by exactly one. -/
theorem claim_C3 :
    (storeABC.receive_broadcast handlerC3).2 =
      [⟨0, 0, actorA⟩, ⟨0, 0, actorC⟩, ⟨0, 1, actorB⟩] ∧
    (storeABC.receive_broadcast handlerC3).1.instances.binAt 0 = [actorC, actorB] ∧
    ((storeABC.receive_broadcast handlerC3).2.map Visit.actor).count actorA = 1 ∧
    ((storeABC.receive_broadcast handlerC3).2.map Visit.actor).count actorB = 1 ∧
    ((storeABC.receive_broadcast handlerC3).2.map Visit.actor).count actorC = 1 ∧
    (storeABC.receive_broadcast handlerC3).1.n_instances + 1 = storeABC.n_instances := by
  decide

/-! ### Small lemmas about lists -/

lemma getD_set_eq {α : Type} (l : List α) (i : Nat) (x d : α) (h : i < l.length) :
    (l.set i x).getD i d = x := by
  rw [List.getD_eq_getElem?_getD, List.getElem?_set_self h]
  rfl

lemma getD_set_ne {α : Type} (l : List α) (i j : Nat) (x d : α) (h : j ≠ i) :
    (l.set i x).getD j d = l.getD j d := by
  rw [List.getD_eq_getElem?_getD, List.getD_eq_getElem?_getD,
    List.getElem?_set_ne (Ne.symm h)]

lemma getD_append_single {α : Type} (l : List α) (x d : α) (n : Nat) :
    (l ++ [x]).getD n d =
      if n < l.length then l.getD n d else if n = l.length then x else d := by
  rw [List.getD_eq_getElem?_getD, List.getElem?_append]
  by_cases h : n < l.length
  · rw [if_pos h, if_pos h, List.getD_eq_getElem?_getD]
  · rw [if_neg h, if_neg h]
    by_cases h2 : n = l.length
    · subst h2
      simp
    · have h3 : l.length < n := by omega
      have h4 : 1 ≤ n - l.length := by omega
      rw [List.getElem?_eq_none (by simpa using h4), if_neg h2]
      rfl

lemma sum_set_nat (L : List Nat) (n a : Nat) (h : n < L.length) :
    (L.set n a).sum + L.getD n 0 = L.sum + a := by
  induction L generalizing n with
  | nil => simp at h
  | cons x xs ih =>
      cases n with
      | zero =>
          simp only [List.set_cons_zero, List.sum_cons, List.getD_cons_zero]
          omega
      | succ m =>
          have hm : m < xs.length := by simpa using h
          have h2 := ih m hm
          simp only [List.set_cons_succ, List.sum_cons, List.getD_cons_succ]
          omega

/-! ### Characterisation of the arena primitives -/

namespace MultiArena

lemma binAt_of_ge (a : MultiArena) (b : Nat) (h : a.bins.length ≤ b) :
    a.binAt b = [] := by
  unfold binAt
  rw [List.getD_eq_getElem?_getD, List.getElem?_eq_none h]
  rfl

lemma lt_of_bin_len_pos (a : MultiArena) (b : Nat) (h : 0 < a.bin_len b) :
    b < a.bins.length := by
  by_contra hb
  have h0 : a.binAt b = [] := a.binAt_of_ge b (Nat.le_of_not_lt hb)
  unfold bin_len at h
  rw [h0] at h
  simp at h

lemma swapRemoveList_length (l : List Actor) (s : Nat) (hs : s < l.length) :
    (swapRemoveList l s).1.length = l.length - 1 := by
  by_cases h1 : s + 1 = l.length
  · simp [swapRemoveList, h1]
  · simp [swapRemoveList, h1, hs]

lemma getLastD_eq (l : List Actor) (h : 0 < l.length) :
    some (l.getLastD default) = l[l.length - 1]? := by
  rw [List.getLastD_eq_getLast?, List.getLast?_eq_getElem?,
    List.getElem?_eq_getElem (by omega)]
  rfl

lemma swapRemoveList_getElem? (l : List Actor) (s : Nat) (hs : s < l.length) (j : Nat) :
    (swapRemoveList l s).1[j]? =
      if j = s ∧ j + 1 < l.length then l[l.length - 1]?
      else if j + 1 < l.length then l[j]? else none := by
  by_cases h1 : s + 1 = l.length
  · have hfst : (swapRemoveList l s).1 = l.dropLast := by simp [swapRemoveList, h1]
    rw [hfst, List.dropLast_eq_take, List.getElem?_take]
    by_cases hj : j + 1 < l.length
    · rw [if_pos (show j < l.length - 1 by omega),
        if_neg (show ¬(j = s ∧ j + 1 < l.length) by omega), if_pos hj]
    · rw [if_neg (show ¬(j < l.length - 1) by omega),
        if_neg (show ¬(j = s ∧ j + 1 < l.length) by omega), if_neg hj]
  · have hfst : (swapRemoveList l s).1 = (l.set s (l.getLastD default)).dropLast := by
      simp [swapRemoveList, h1, hs]
    rw [hfst, List.dropLast_eq_take, List.length_set, List.getElem?_take]
    by_cases hj : j + 1 < l.length
    · by_cases hjs : j = s
      · rw [hjs, if_pos (show s < l.length - 1 by omega), List.getElem?_set_self hs,
          if_pos (show s = s ∧ s + 1 < l.length from ⟨rfl, by omega⟩)]
        exact getLastD_eq l (by omega)
      · rw [if_pos (show j < l.length - 1 by omega),
          List.getElem?_set_ne (show s ≠ j by omega),
          if_neg (show ¬(j = s ∧ j + 1 < l.length) by omega), if_pos hj]
    · rw [if_neg (show ¬(j < l.length - 1) by omega),
        if_neg (show ¬(j = s ∧ j + 1 < l.length) by omega), if_neg hj]

lemma swapRemoveList_snd (l : List Actor) (s : Nat) (hs : s < l.length) :
    (swapRemoveList l s).2 =
      if s + 1 = l.length then none else l[l.length - 1]? := by
  by_cases h1 : s + 1 = l.length
  · simp [swapRemoveList, h1]
  · have hsnd : (swapRemoveList l s).2 = some (l.getLastD default) := by
      simp [swapRemoveList, h1, hs]
    rw [hsnd, if_neg h1]
    exact getLastD_eq l (by omega)

lemma push_spec (a : MultiArena) (r : Actor) :
    ∃ c, (a.push r).2 = ⟨c, a.bin_len c⟩ ∧
      (∀ b, (a.push r).1.binAt b = a.binAt b ++ (if b = c then [r] else [])) ∧
      a.bins.length ≤ (a.push r).1.bins.length := by
  by_cases hc : a.mru < a.bins.length ∧ usedBytes (a.binAt a.mru) + r.size ≤ a.chunkSize
  · have hbins : (a.push r).1.bins = a.bins.set a.mru (a.binAt a.mru ++ [r]) := by
      simp [push, hc]
    have hsnd : (a.push r).2 = ⟨a.mru, (a.binAt a.mru).length⟩ := by
      simp [push, hc]
    refine ⟨a.mru, ?_, ?_, ?_⟩
    · rw [hsnd]
      rfl
    · intro b
      have hLHS : (a.push r).1.binAt b
          = (a.bins.set a.mru (a.binAt a.mru ++ [r])).getD b [] := by
        rw [binAt, hbins]
      rw [hLHS]
      by_cases hb : b = a.mru
      · rw [if_pos hb, hb, getD_set_eq _ _ _ _ hc.1]
      · rw [if_neg hb, getD_set_ne _ _ _ _ _ hb, List.append_nil]
        rfl
    · rw [hbins, List.length_set]
  · have hbins : (a.push r).1.bins = a.bins ++ [[r]] := by
      simp [push, hc]
    have hsnd : (a.push r).2 = ⟨a.bins.length, 0⟩ := by
      simp [push, hc]
    refine ⟨a.bins.length, ?_, ?_, ?_⟩
    · rw [hsnd]
      have h0 : a.bin_len a.bins.length = 0 := by
        rw [bin_len, a.binAt_of_ge _ le_rfl]
        rfl
      rw [h0]
    · intro b
      have hLHS : (a.push r).1.binAt b = (a.bins ++ [[r]]).getD b [] := by
        rw [binAt, hbins]
      rw [hLHS, getD_append_single]
      by_cases hb : b < a.bins.length
      · rw [if_pos hb, if_neg (show ¬(b = a.bins.length) by omega), List.append_nil]
        rfl
      · rw [if_neg hb]
        by_cases hb2 : b = a.bins.length
        · rw [if_pos hb2, a.binAt_of_ge b (by omega), List.nil_append]
        · rw [if_neg hb2, a.binAt_of_ge b (by omega), List.append_nil]
    · rw [hbins, List.length_append]
      simp
  
lemma setAt_binAt (a : MultiArena) (i : SlotIndices) (r : Actor) (b : Nat) :
    (a.setAt i r).binAt b =
      if b = i.bin then (a.binAt i.bin).set i.slot r else a.binAt b := by
  by_cases hb : b = i.bin
  · rw [if_pos hb, hb]
    by_cases hlt : i.bin < a.bins.length
    · exact getD_set_eq _ _ _ _ hlt
    · have hge := Nat.le_of_not_lt hlt
      have h1 : a.binAt i.bin = [] := a.binAt_of_ge _ hge
      have h2 : (a.setAt i r).binAt i.bin = a.binAt i.bin := by
        show (a.bins.set i.bin ((a.binAt i.bin).set i.slot r)).getD i.bin [] = _
        rw [List.set_eq_of_length_le hge]
        rfl
      rw [h2, h1, List.set_nil]
  · rw [if_neg hb]
    exact getD_set_ne _ _ _ _ _ hb

lemma swap_remove_bins (a : MultiArena) (i : SlotIndices) (b : Nat) :
    (a.swap_remove_within_bin i).1.binAt b =
      if b = i.bin then (swapRemoveList (a.binAt i.bin) i.slot).1 else a.binAt b := by
  by_cases hb : b = i.bin
  · rw [if_pos hb, hb]
    by_cases hlt : i.bin < a.bins.length
    · exact getD_set_eq _ _ _ _ hlt
    · have hge := Nat.le_of_not_lt hlt
      have h1 : a.binAt i.bin = [] := a.binAt_of_ge _ hge
      have h2 : (a.swap_remove_within_bin i).1.binAt i.bin = a.binAt i.bin := by
        show (a.bins.set i.bin _).getD i.bin [] = _
        rw [List.set_eq_of_length_le hge]
        rfl
      rw [h2, h1]
      simp [swapRemoveList]
  · rw [if_neg hb]
    exact getD_set_ne _ _ _ _ _ hb

lemma swap_remove_snd (a : MultiArena) (i : SlotIndices) :
    (a.swap_remove_within_bin i).2 = (swapRemoveList (a.binAt i.bin) i.slot).2 := rfl

lemma push_chunk (a : MultiArena) (r : Actor) :
    (a.push r).1.chunkSize = a.chunkSize := by
  by_cases hc : a.mru < a.bins.length ∧ usedBytes (a.binAt a.mru) + r.size ≤ a.chunkSize
  · simp [push, hc]
  · simp [push, hc]

end MultiArena

/-! ### Characterisation of the store primitives -/

namespace InstanceStore

lemma swap_remove_def (s : InstanceStore) (i : SlotIndices) :
    s.swap_remove i =
      { s with instances := (s.instances.swap_remove_within_bin i).1,
               slot_map := match (s.instances.swap_remove_within_bin i).2 with
                 | some mv => s.slot_map.associate mv.ident.instanceId i
                 | none => s.slot_map } := by
  rcases hsw : s.instances.swap_remove_within_bin i with ⟨a, mo⟩
  unfold InstanceStore.swap_remove
  rw [hsw]
  cases mo <;> rfl

lemma swap_remove_n (s : InstanceStore) (i : SlotIndices) :
    (s.swap_remove i).n_instances = s.n_instances := by
  rw [s.swap_remove_def i]

lemma swap_remove_instances (s : InstanceStore) (i : SlotIndices) :
    (s.swap_remove i).instances = (s.instances.swap_remove_within_bin i).1 := by
  rw [s.swap_remove_def i]

lemma add_n (s : InstanceStore) (x : Actor) : (s.add x).n_instances = s.n_instances := rfl

lemma add_slot_map (s : InstanceStore) (x : Actor) :
    (s.add x).slot_map =
      s.slot_map.associate x.ident.instanceId (s.instances.push (compact_behind x)).2 := rfl

lemma add_instances (s : InstanceStore) (x : Actor) :
    (s.add x).instances = (s.instances.push (compact_behind x)).1 := rfl

lemma resize_at_index_n (s : InstanceStore) (old_i : SlotIndices) :
    (s.resize_at_index old_i).n_instances = s.n_instances := by
  unfold resize_at_index
  rw [swap_remove_n, add_n]

lemma remove_at_index_n (s : InstanceStore) (i : SlotIndices) (id : RawID) :
    (s.remove_at_index i id).n_instances = s.n_instances - 1 := by
  show (s.swap_remove i).n_instances - 1 = s.n_instances - 1
  rw [swap_remove_n]

lemma swap_remove_entries_length (s : InstanceStore) (i : SlotIndices) :
    (s.swap_remove i).slot_map.entries.length = s.slot_map.entries.length := by
  rw [s.swap_remove_def i]
  rcases (s.instances.swap_remove_within_bin i).2 with _ | mv
  · rfl
  · exact SlotMap.length_associate _ _ _

end InstanceStore

lemma getElem?_some_lt {α : Type} (l : List α) (n : Nat) (x : α) (h : l[n]? = some x) :
    n < l.length := by
  by_contra hn
  rw [List.getElem?_eq_none (Nat.le_of_not_lt hn)] at h
  cases h

/-! ### Claim C7: remove and resize abort exactly when the number does not resolve -/

/-- C7: remove and resize return normally (some) precisely when the
instance number currently resolves through the trusted no-version-check
lookup; for a number with no current slot entry both panic, modelled as
none. -/
theorem claim_C7 : ∀ (s : InstanceStore) (id : RawID) (idn : Nat),
    ((s.remove id).isSome ↔
      (s.slot_map.indices_of_no_version_check id.instanceId).isSome) ∧
    ((s.resize idn).isSome ↔ (s.slot_map.indices_of_no_version_check idn).isSome) := by
  intro s id idn
  constructor
  · simp [InstanceStore.remove]
  · simp [InstanceStore.resize]

/-! ### Claim C6: stale handles are silently not found -/

/-- C6: for a handle whose instance number is currently free (or was never
allocated) or whose version does not match the entry's current version,
the defensive lookup fails, and receive_instance returns normally with the
store unchanged and the handler never invoked (the false flag is the logged
not-found outcome). -/
theorem claim_C6 : ∀ (s : InstanceStore) (id : RawID) (handler : Handler),
    (∀ e, s.slot_map.entries[id.instanceId]? = some e →
      e.loc = none ∨ e.version ≠ id.version) →
    s.slot_map.indices_of id.instanceId id.version = none ∧
    s.receive_instance id handler = some (s, false) := by
  intro s id handler h
  have hres : s.slot_map.indices_of id.instanceId id.version = none := by
    unfold SlotMap.indices_of
    rcases he : s.slot_map.entries[id.instanceId]? with _ | e
    · rfl
    · show (if e.version = id.version then e.loc else none) = none
      rcases h e he with h0 | h0
      · by_cases hv : e.version = id.version
        · rw [if_pos hv]
          exact h0
        · rw [if_neg hv]
      · rw [if_neg h0]
  refine ⟨hres, ?_⟩
  unfold InstanceStore.receive_instance InstanceStore.at_mut
  rw [hres]

/-! ### Claim C9: remove and resize ignore the handle version -/

/-- C9: for a handle whose instance number is occupied but whose version is
stale, the defensive lookup fails, yet remove and resize still resolve and
act on the current occupant: remove returns normally, frees the entry
(bumping its stored version), decrements the counter and shrinks the
occupant's bin, rather than failing or being a no-op. -/
theorem claim_C9 : ∀ (s : InstanceStore) (id : RawID) (e : SlotEntry) (i : SlotIndices),
    s.slot_map.entries[id.instanceId]? = some e →
    e.loc = some i →
    e.version ≠ id.version →
    i.slot < s.instances.bin_len i.bin →
    s.slot_map.indices_of id.instanceId id.version = none ∧
    s.remove id = some (s.remove_at_index i id) ∧
    s.resize id.instanceId = some (s.resize_at_index i) ∧
    (s.remove_at_index i id).slot_map.entries[id.instanceId]? =
      some ⟨none, e.version + 1⟩ ∧
    (s.remove_at_index i id).n_instances = s.n_instances - 1 ∧
    (s.remove_at_index i id).instances.bin_len i.bin + 1 = s.instances.bin_len i.bin := by
  intro s id e i hmem hloc hver hslot
  have hlt : id.instanceId < s.slot_map.entries.length := getElem?_some_lt _ _ _ hmem
  have htrusted : s.slot_map.indices_of_no_version_check id.instanceId = some i := by
    unfold SlotMap.indices_of_no_version_check
    rw [hmem]
    exact hloc
  refine ⟨?_, ?_, ?_, ?_, s.remove_at_index_n i id, ?_⟩
  · unfold SlotMap.indices_of
    rw [hmem]
    show (if e.version = id.version then e.loc else none) = none
    rw [if_neg hver]
  · unfold InstanceStore.remove
    rw [htrusted]
    rfl
  · unfold InstanceStore.resize
    rw [htrusted]
    rfl
  · unfold InstanceStore.remove_at_index
    have hver1 : ∀ j, (((s.swap_remove i).slot_map.entries.getD j default)).version =
        ((s.slot_map.entries.getD j default)).version := by
      intro j
      rw [s.swap_remove_def i]
      rcases (s.instances.swap_remove_within_bin i).2 with _ | mv
      · rfl
      · exact SlotMap.associate_version _ _ _ _
    have hlen1 : (s.swap_remove i).slot_map.entries.length = s.slot_map.entries.length :=
      s.swap_remove_entries_length i
    rw [SlotMap.free_getElem?_self _ _ _ (by omega), hver1]
    rw [List.getD_eq_getElem?_getD, hmem]
    rfl
  · unfold InstanceStore.remove_at_index
    show ((s.swap_remove i).instances.bin_len i.bin) + 1 = _
    rw [s.swap_remove_instances i, MultiArena.bin_len, MultiArena.swap_remove_bins,
      if_pos rfl, MultiArena.swapRemoveList_length _ _ hslot]
    unfold MultiArena.bin_len at hslot ⊢
    omega

/-! ### Claim C5: the three outcomes of a resolved single delivery -/

/-- C5: when deliver_to resolves its handle, the handler runs and the store
reacts to the verdict: on alive with a still-self-contained record (and no
reentrant creations) the only change is the in-place record update, with
the slot table, the counter and every bin length untouched; on alive with a
no-longer-self-contained record the store resizes that instance; on dead
the store removes it. -/
theorem claim_C5 : ∀ (s : InstanceStore) (id : RawID) (handler : Handler)
    (index : SlotIndices),
    s.at_mut id.instanceId id.version = some index →
    ((handler (s.at_index_mut index)).fate = Fate.Live →
      (handler (s.at_index_mut index)).updated.isStillCompact = true →
      (handler (s.at_index_mut index)).created = [] →
      s.receive_instance id handler =
        some ({ s with instances :=
          s.instances.setAt index (handler (s.at_index_mut index)).updated }, true)) ∧
    ((handler (s.at_index_mut index)).fate = Fate.Live →
      (handler (s.at_index_mut index)).updated.isStillCompact = false →
      s.receive_instance id handler =
        ((afterHandlerStore s index handler).resize id.instanceId).map
          (fun s3 => (s3, true))) ∧
    ((handler (s.at_index_mut index)).fate = Fate.Die →
      s.receive_instance id handler =
        ((afterHandlerStore s index handler).remove id).map (fun s3 => (s3, true))) := by
  intro s id handler index h
  refine ⟨?_, ?_, ?_⟩
  · intro hfate hcompact hcreated
    unfold InstanceStore.receive_instance
    rw [h]
    simp only [hfate, hcompact, hcreated, List.foldl_nil, if_pos]
  · intro hfate hcompact
    unfold InstanceStore.receive_instance
    rw [h]
    simp only [hfate, hcompact, Bool.false_eq_true, afterHandlerStore]
    simp
  · intro hfate
    unfold InstanceStore.receive_instance
    rw [h]
    simp only [hfate, afterHandlerStore]

/-! ### Claim C10: resize is counter- and frame-preserving -/

/-- C10: for a currently-resolving instance number, resize leaves the
instance counter unchanged (the re-add and the swap-removal of the old
location neither increment nor decrement it), keeps the slot table's size,
and modifies no slot entry other than the resized instance's own and the
one belonging to the record the swap-removal moved into the old location. -/
theorem claim_C10 : ∀ (s : InstanceStore) (idn : Nat) (old_i : SlotIndices),
    s.slot_map.indices_of_no_version_check idn = some old_i →
    (s.at_index_mut old_i).ident.instanceId = idn →
    s.resize idn = some (s.resize_at_index old_i) ∧
    (s.resize_at_index old_i).n_instances = s.n_instances ∧
    (s.resize_at_index old_i).slot_map.entries.length = s.slot_map.entries.length ∧
    (∀ j, j ≠ idn →
      (∀ mv, ((s.add (s.at_index_mut old_i)).instances.swap_remove_within_bin old_i).2
          = some mv → j ≠ mv.ident.instanceId) →
      (s.resize_at_index old_i).slot_map.entries[j]? = s.slot_map.entries[j]?) := by
  intro s idn old_i hres hmatch
  refine ⟨?_, s.resize_at_index_n old_i, ?_, ?_⟩
  · unfold InstanceStore.resize
    rw [hres]
    rfl
  · show ((s.add (s.at_index_mut old_i)).swap_remove old_i).slot_map.entries.length = _
    rw [InstanceStore.swap_remove_entries_length, InstanceStore.add_slot_map,
      SlotMap.length_associate]
  · intro j hj hmv
    show ((s.add (s.at_index_mut old_i)).swap_remove old_i).slot_map.entries[j]? = _
    rw [InstanceStore.swap_remove_def]
    rcases hsw : ((s.add (s.at_index_mut old_i)).instances.swap_remove_within_bin old_i).2
      with _ | mv
    · show (s.add (s.at_index_mut old_i)).slot_map.entries[j]? = _
      rw [InstanceStore.add_slot_map, SlotMap.associate_getElem?_ne]
      rw [hmatch]
      exact hj
    · show ((s.add (s.at_index_mut old_i)).slot_map.associate
        mv.ident.instanceId old_i).entries[j]? = _
      rw [SlotMap.associate_getElem?_ne _ _ _ _ (hmv mv hsw), InstanceStore.add_slot_map,
        SlotMap.associate_getElem?_ne]
      rw [hmatch]
      exact hj

/-! ### Counting helpers -/

lemma mem_of_getElem?_some {α : Type} (l : List α) (n : Nat) (x : α) (h : l[n]? = some x) :
    x ∈ l := by
  have hlt := getElem?_some_lt l n x h
  rw [List.getElem?_eq_getElem hlt] at h
  have hx : l[n] = x := Option.some.inj h
  rw [hx.symm]
  exact List.getElem_mem hlt

lemma countP_set_entry (E : List SlotEntry) (id : Nat) (enew eold : SlotEntry)
    (hmem : E[id]? = some eold) :
    (E.set id enew).countP (fun e => e.loc.isSome)
        + (if eold.loc.isSome = true then 1 else 0)
      = E.countP (fun e => e.loc.isSome)
        + (if enew.loc.isSome = true then 1 else 0) := by
  have hlt := getElem?_some_lt E id eold hmem
  have hset := List.countP_set (fun e => e.loc.isSome) E id enew hlt
  have hgE : E[id] = eold := by
    rw [List.getElem?_eq_getElem hlt] at hmem
    exact Option.some.inj hmem
  rw [hgE] at hset
  by_cases hp : eold.loc.isSome = true
  · have hpos : 0 < E.countP (fun e => e.loc.isSome) := by
      rw [List.countP_pos_iff]
      exact ⟨eold, mem_of_getElem?_some E id eold hmem, hp⟩
    rw [hset, if_pos hp]
    omega
  · rw [hset, if_neg hp]
    omega

lemma MultiArena.push_recordSum (a : MultiArena) (r : Actor) :
    ((a.push r).1.bins.map List.length).sum = (a.bins.map List.length).sum + 1 := by
  by_cases hc : a.mru < a.bins.length ∧
      MultiArena.usedBytes (a.binAt a.mru) + r.size ≤ a.chunkSize
  · have hbins : (a.push r).1.bins = a.bins.set a.mru (a.binAt a.mru ++ [r]) := by
      simp [MultiArena.push, hc]
    rw [hbins, List.map_set]
    have hlen : (a.bins.map List.length).getD a.mru 0 = (a.binAt a.mru).length := by
      simp [MultiArena.binAt, List.getD_eq_getElem?_getD, List.getElem?_map,
        List.getElem?_eq_getElem hc.1]
    have hs := sum_set_nat (a.bins.map List.length) a.mru
      ((a.binAt a.mru ++ [r]).length) (by simpa using hc.1)
    have hX : (a.binAt a.mru ++ [r]).length = (a.binAt a.mru).length + 1 := by simp
    rw [hX] at hs ⊢
    rw [hlen] at hs
    omega
  · have hbins : (a.push r).1.bins = a.bins ++ [[r]] := by
      simp [MultiArena.push, hc]
    rw [hbins, List.map_append, List.sum_append]
    simp

lemma MultiArena.swap_recordSum (a : MultiArena) (i : SlotIndices)
    (h : i.slot < a.bin_len i.bin) :
    ((a.swap_remove_within_bin i).1.bins.map List.length).sum + 1
      = (a.bins.map List.length).sum := by
  have hlt : i.bin < a.bins.length := a.lt_of_bin_len_pos i.bin (by omega)
  have hbins : (a.swap_remove_within_bin i).1.bins
      = a.bins.set i.bin (MultiArena.swapRemoveList (a.binAt i.bin) i.slot).1 := rfl
  rw [hbins, List.map_set]
  have hlen0 : (a.bins.map List.length).getD i.bin 0 = (a.binAt i.bin).length := by
    simp [MultiArena.binAt, List.getD_eq_getElem?_getD, List.getElem?_map,
      List.getElem?_eq_getElem hlt]
  have hs := sum_set_nat (a.bins.map List.length) i.bin
    ((MultiArena.swapRemoveList (a.binAt i.bin) i.slot).1.length) (by simpa using hlt)
  have hY : (MultiArena.swapRemoveList (a.binAt i.bin) i.slot).1.length
      = (a.binAt i.bin).length - 1 := MultiArena.swapRemoveList_length _ _ h
  rw [hY] at hs ⊢
  rw [hlen0] at hs
  unfold MultiArena.bin_len at h
  omega

lemma SlotMap.trusted_eq_some (m : SlotMap) (id : Nat) (i : SlotIndices) :
    m.indices_of_no_version_check id = some i ↔
      ∃ e, m.entries[id]? = some e ∧ e.loc = some i := by
  unfold SlotMap.indices_of_no_version_check
  rw [Option.bind_eq_some]

lemma compact_behind_ident (r : Actor) : (compact_behind r).ident = r.ident := rfl

lemma MultiArena.bin_len_eq (a : MultiArena) (b : Nat) :
    a.bin_len b = (a.binAt b).length := rfl

/-! ### Well-formedness preservation: adding under a free instance number -/

lemma add_free_id_WF (s : InstanceStore) (x : Actor) (v : Nat)
    (hfw : locationsMatch s)
    (hbw : pointsBack s)
    (hfree : s.slot_map.entries[x.ident.instanceId]? = some ⟨none, v⟩) :
    locationsMatch (s.add x) ∧ pointsBack (s.add x) ∧
    liveCount (s.add x) = liveCount s + 1 ∧
    recordCount (s.add x) = recordCount s + 1 ∧
    (∀ j, j ≠ x.ident.instanceId →
      (s.add x).slot_map.entries[j]? = s.slot_map.entries[j]?) ∧
    (s.add x).slot_map.freeList = s.slot_map.freeList ∧
    (s.add x).slot_map.entries.length = s.slot_map.entries.length := by
  have hlt : x.ident.instanceId < s.slot_map.entries.length := getElem?_some_lt _ _ _ hfree
  obtain ⟨c, hidx, hbins, hblen⟩ := MultiArena.push_spec s.instances (compact_behind x)
  have hgetDfree : s.slot_map.entries.getD x.ident.instanceId default = ⟨none, v⟩ := by
    rw [List.getD_eq_getElem?_getD, hfree]
    rfl
  have hEself : (s.add x).slot_map.entries[x.ident.instanceId]? =
      some ⟨some ⟨c, s.instances.bin_len c⟩, v⟩ := by
    rw [InstanceStore.add_slot_map, hidx, SlotMap.associate_getElem?_self _ _ _ hlt,
      hgetDfree]
  have hEframe : ∀ j, j ≠ x.ident.instanceId →
      (s.add x).slot_map.entries[j]? = s.slot_map.entries[j]? := by
    intro j hj
    rw [InstanceStore.add_slot_map, SlotMap.associate_getElem?_ne _ _ _ _ hj]
  have hb1 : ∀ b, (s.add x).instances.binAt b
      = s.instances.binAt b ++ (if b = c then [compact_behind x] else []) := by
    intro b
    rw [InstanceStore.add_instances]
    exact hbins b
  have hblen2 : ∀ b, (s.add x).instances.bin_len b
      = s.instances.bin_len b + (if b = c then 1 else 0) := by
    intro b
    rw [MultiArena.bin_len_eq, MultiArena.bin_len_eq, hb1 b, List.length_append]
    by_cases hbc : b = c <;> simp [hbc]
  have hgetD_lt : ∀ b sl, sl < s.instances.bin_len b →
      ((s.add x).instances.binAt b).getD sl default
        = (s.instances.binAt b).getD sl default := by
    intro b sl hsl
    rw [MultiArena.bin_len_eq] at hsl
    rw [hb1 b]
    by_cases hbc : b = c
    · rw [if_pos hbc, getD_append_single, if_pos hsl]
    · simp [hbc]
  have hgetD_new : ((s.add x).instances.binAt c).getD (s.instances.bin_len c) default
      = compact_behind x := by
    rw [hb1 c, if_pos rfl, getD_append_single, MultiArena.bin_len_eq,
      if_neg (by omega), if_pos rfl]
  refine ⟨?_, ?_, ?_, ?_, hEframe, rfl, ?_⟩
  · intro id e loc hme hloc
    by_cases hid : id = x.ident.instanceId
    · rw [hid, hEself] at hme
      have he : e = ⟨some ⟨c, s.instances.bin_len c⟩, v⟩ := (Option.some.inj hme).symm
      rw [he] at hloc
      have hl : loc = ⟨c, s.instances.bin_len c⟩ := (Option.some.inj hloc).symm
      rw [hl, hid]
      constructor
      · show s.instances.bin_len c < (s.add x).instances.bin_len c
        rw [hblen2 c, if_pos rfl]
        omega
      · rw [hgetD_new, compact_behind_ident]
    · rw [hEframe id hid] at hme
      obtain ⟨h1, h2⟩ := hfw id e loc hme hloc
      constructor
      · rw [hblen2 loc.bin]
        omega
      · rw [hgetD_lt _ _ h1]
        exact h2
  · intro b sl hsl
    rw [hblen2 b] at hsl
    by_cases hnew : b = c ∧ sl = s.instances.bin_len c
    · obtain ⟨hb, hs2⟩ := hnew
      rw [hb, hs2, hgetD_new, compact_behind_ident, SlotMap.trusted_eq_some]
      exact ⟨_, hEself, rfl⟩
    · have hslb : sl < s.instances.bin_len b := by
        by_cases hbc : b = c
        · have hne : sl ≠ s.instances.bin_len c := fun hh => hnew ⟨hbc, hh⟩
          rw [if_pos hbc] at hsl
          rw [hbc] at hsl ⊢
          omega
        · rw [if_neg hbc] at hsl
          omega
      rw [hgetD_lt _ _ hslb]
      have hold := hbw b sl hslb
      rw [SlotMap.trusted_eq_some] at hold
      obtain ⟨er, her, herloc⟩ := hold
      have hrne : ((s.instances.binAt b).getD sl default).ident.instanceId
          ≠ x.ident.instanceId := by
        intro hh
        rw [hh, hfree] at her
        have her2 : er = ⟨none, v⟩ := (Option.some.inj her).symm
        rw [her2] at herloc
        cases herloc
      rw [SlotMap.trusted_eq_some]
      refine ⟨er, ?_, herloc⟩
      rw [hEframe _ hrne]
      exact her
  · have hEeq : (s.add x).slot_map.entries
        = s.slot_map.entries.set x.ident.instanceId
            ⟨some ⟨c, s.instances.bin_len c⟩, v⟩ := by
      rw [InstanceStore.add_slot_map, hidx]
      unfold SlotMap.associate
      rw [hgetDfree]
    unfold liveCount
    rw [hEeq]
    have hcc := countP_set_entry s.slot_map.entries x.ident.instanceId
      ⟨some ⟨c, s.instances.bin_len c⟩, v⟩ ⟨none, v⟩ hfree
    simp only [Option.isSome_none, Option.isSome_some, if_true, if_false] at hcc
    simp at hcc
    omega
  · unfold recordCount
    rw [InstanceStore.add_instances]
    exact MultiArena.push_recordSum s.instances (compact_behind x)
  · rw [InstanceStore.add_slot_map]
    exact SlotMap.length_associate _ _ _

/-! ### Well-formedness of the fresh store and preservation by spawning -/

lemma new_WF (typical : Nat) : StoreWF (InstanceStore.new typical) := by
  constructor
  · intro id e loc hme
    simp [InstanceStore.new] at hme
  · intro b sl hsl
    simp [InstanceStore.new, MultiArena.bin_len, MultiArena.binAt] at hsl
  · intro id hid
    simp [InstanceStore.new] at hid
  · simp [InstanceStore.new]
  · rfl
  · rfl

lemma spawn_eq_cons (s : InstanceStore) (t : Actor) (fid : Nat) (rest : List Nat)
    (hfl : s.slot_map.freeList = fid :: rest) :
    s.spawn t =
      { ({ s with slot_map := SlotMap.mk s.slot_map.entries rest }.add
          { t with ident := (RawID.mk t.ident.typeId fid t.ident.machine
            (s.slot_map.entries.getD fid default).version) }) with
        n_instances := ({ s with slot_map := SlotMap.mk s.slot_map.entries rest }.add
          { t with ident := (RawID.mk t.ident.typeId fid t.ident.machine
            (s.slot_map.entries.getD fid default).version) }).n_instances + 1 } := by
  unfold InstanceStore.spawn InstanceStore.allocate_id SlotMap.allocate_id
  rw [hfl]

lemma spawn_eq_nil (s : InstanceStore) (t : Actor)
    (hfl : s.slot_map.freeList = []) :
    s.spawn t =
      { ({ s with slot_map := (SlotMap.mk
            (s.slot_map.entries ++ [SlotEntry.mk none 0]) []) }.add
          { t with ident := (RawID.mk t.ident.typeId s.slot_map.entries.length
            t.ident.machine 0) }) with
        n_instances := ({ s with slot_map := (SlotMap.mk
            (s.slot_map.entries ++ [SlotEntry.mk none 0]) []) }.add
          { t with ident := (RawID.mk t.ident.typeId s.slot_map.entries.length
            t.ident.machine 0) }).n_instances + 1 } := by
  unfold InstanceStore.spawn InstanceStore.allocate_id SlotMap.allocate_id
  rw [hfl]

theorem spawn_WF (s : InstanceStore) (t : Actor) (h : StoreWF s) : StoreWF (s.spawn t) := by
  rcases hfl : s.slot_map.freeList with _ | ⟨fid, rest⟩
  · -- mint a fresh instance number
    rw [spawn_eq_nil s t hfl]
    set smid : InstanceStore :=
      { s with slot_map := (SlotMap.mk
          (s.slot_map.entries ++ [SlotEntry.mk none 0]) []) } with hsmid
    set staged : Actor :=
      { t with ident := (RawID.mk t.ident.typeId s.slot_map.entries.length
        t.ident.machine 0) } with hstaged
    have hfw_mid : locationsMatch smid := by
      intro id e loc hme hloc
      show loc.slot < s.instances.bin_len loc.bin ∧ _
      have hme2 : (s.slot_map.entries ++ [SlotEntry.mk none 0])[id]? = some e := hme
      rw [List.getElem?_append] at hme2
      by_cases hid : id < s.slot_map.entries.length
      · rw [if_pos hid] at hme2
        exact h.forward id e loc hme2 hloc
      · rw [if_neg hid] at hme2
        rcases hd : id - s.slot_map.entries.length with _ | k
        · rw [hd] at hme2
          have he : e = ⟨none, 0⟩ := by
            simpa using (Option.some.inj hme2).symm
          rw [he] at hloc
          cases hloc
        · rw [hd] at hme2
          simp at hme2
    have hbw_mid : pointsBack smid := by
      intro b sl hsl
      have hold := h.backward b sl hsl
      rw [SlotMap.trusted_eq_some] at hold ⊢
      obtain ⟨er, her, herloc⟩ := hold
      refine ⟨er, ?_, herloc⟩
      show (s.slot_map.entries ++ [SlotEntry.mk none 0])[_]? = some er
      rw [List.getElem?_append, if_pos (getElem?_some_lt _ _ _ her)]
      exact her
    have hfree_mid : smid.slot_map.entries[staged.ident.instanceId]? =
        some ⟨none, 0⟩ := by
      show (s.slot_map.entries ++ [SlotEntry.mk none 0])[s.slot_map.entries.length]? = _
      exact List.getElem?_concat_length _ _
    have key := add_free_id_WF smid staged 0 hfw_mid hbw_mid hfree_mid
    have hlive_mid : liveCount smid = liveCount s := by
      show (s.slot_map.entries ++ [SlotEntry.mk none 0]).countP _ = _
      rw [List.countP_append]
      simp [liveCount]
    constructor
    · exact key.1
    · exact key.2.1
    · intro id hid
      have hid2 : id ∈ (smid.add staged).slot_map.freeList := hid
      rw [key.2.2.2.2.2.1] at hid2
      cases hid2
    · show (smid.add staged).slot_map.freeList.Nodup
      rw [key.2.2.2.2.2.1]
      exact List.nodup_nil
    · show (smid.add staged).n_instances + 1 = liveCount (smid.add staged)
      rw [key.2.2.1, hlive_mid, InstanceStore.add_n]
      have : smid.n_instances = s.n_instances := rfl
      rw [this, h.count_live]
    · show liveCount (smid.add staged) = recordCount (smid.add staged)
      rw [key.2.2.1, key.2.2.2.1, hlive_mid]
      have : recordCount smid = recordCount s := rfl
      rw [this, h.count_rec]
  · -- reuse a number from the free list
    rw [spawn_eq_cons s t fid rest hfl]
    set smid : InstanceStore :=
      { s with slot_map := SlotMap.mk s.slot_map.entries rest } with hsmid
    set staged : Actor :=
      { t with ident := (RawID.mk t.ident.typeId fid t.ident.machine
        (s.slot_map.entries.getD fid default).version) } with hstaged
    obtain ⟨ef, hef, hefloc⟩ := h.free_wf fid (by rw [hfl]; exact List.mem_cons_self _ _)
    have hef2 : ef = ⟨none, ef.version⟩ := by
      obtain ⟨efloc, efv⟩ := ef
      cases hefloc
      rfl
    have hfw_mid : locationsMatch smid := h.forward
    have hbw_mid : pointsBack smid := h.backward
    have hfree_mid : smid.slot_map.entries[staged.ident.instanceId]? =
        some ⟨none, ef.version⟩ := by
      show s.slot_map.entries[fid]? = _
      rw [hef, hef2]
    have key := add_free_id_WF smid staged ef.version hfw_mid hbw_mid hfree_mid
    have hfid_notin : fid ∉ rest := by
      have hnd := h.free_nodup
      rw [hfl, List.nodup_cons] at hnd
      exact hnd.1
    constructor
    · exact key.1
    · exact key.2.1
    · intro id hid
      have hid2 : id ∈ (smid.add staged).slot_map.freeList := hid
      rw [key.2.2.2.2.2.1] at hid2
      have hid3 : id ∈ rest := hid2
      have hidne : id ≠ staged.ident.instanceId := by
        show id ≠ fid
        intro hh
        rw [hh] at hid3
        exact hfid_notin hid3
      obtain ⟨e2, he2, he2loc⟩ := h.free_wf id
        (by rw [hfl]; exact List.mem_cons_of_mem _ hid3)
      refine ⟨e2, ?_, he2loc⟩
      show (smid.add staged).slot_map.entries[id]? = some e2
      rw [key.2.2.2.2.1 id hidne]
      exact he2
    · show (smid.add staged).slot_map.freeList.Nodup
      rw [key.2.2.2.2.2.1]
      have hnd := h.free_nodup
      rw [hfl] at hnd
      exact hnd.of_cons
    · show (smid.add staged).n_instances + 1 = liveCount (smid.add staged)
      rw [key.2.2.1, InstanceStore.add_n]
      have h1 : smid.n_instances = s.n_instances := rfl
      have h2 : liveCount smid = liveCount s := rfl
      rw [h1, h2, h.count_live]
    · show liveCount (smid.add staged) = recordCount (smid.add staged)
      rw [key.2.2.1, key.2.2.2.1]
      have h2 : liveCount smid = liveCount s := rfl
      have h3 : recordCount smid = recordCount s := rfl
      rw [h2, h3, h.count_rec]

/-! ### Characterisation of swap_remove under the invariant -/

lemma liveCount_associate_occupied (m : SlotMap) (id : Nat) (loc1 : SlotIndices)
    (e : SlotEntry) (hmem : m.entries[id]? = some e) (hocc : e.loc.isSome = true) :
    (m.associate id loc1).entries.countP (fun x => x.loc.isSome)
      = m.entries.countP (fun x => x.loc.isSome) := by
  have hgd : m.entries.getD id default = e := by
    rw [List.getD_eq_getElem?_getD, hmem]
    rfl
  have hcc := countP_set_entry m.entries id { e with loc := some loc1 } e hmem
  rw [if_pos hocc, if_pos (by simp)] at hcc
  have h2 : (m.associate id loc1).entries = m.entries.set id { e with loc := some loc1 } := by
    unfold SlotMap.associate
    rw [hgd]
  rw [h2]
  omega

lemma liveCount_free_occupied (m : SlotMap) (id v : Nat) (e : SlotEntry)
    (hmem : m.entries[id]? = some e) (hocc : e.loc.isSome = true) :
    (m.free id v).entries.countP (fun x => x.loc.isSome) + 1
      = m.entries.countP (fun x => x.loc.isSome) := by
  have hgd : m.entries.getD id default = e := by
    rw [List.getD_eq_getElem?_getD, hmem]
    rfl
  have hcc := countP_set_entry m.entries id ⟨none, e.version + 1⟩ e hmem
  rw [if_pos hocc, if_neg (by simp)] at hcc
  have h2 : (m.free id v).entries = m.entries.set id ⟨none, e.version + 1⟩ := by
    unfold SlotMap.free
    rw [hgd]
  rw [h2]
  omega

lemma swap_core (s : InstanceStore) (i : SlotIndices)
    (hfw : locationsMatch s)
    (hbwX : ∀ b sl, sl < s.instances.bin_len b → ¬(b = i.bin ∧ sl = i.slot) →
      s.slot_map.indices_of_no_version_check
        (((s.instances.binAt b).getD sl default).ident.instanceId) = some ⟨b, sl⟩)
    (hslot : i.slot < s.instances.bin_len i.bin) :
    (∀ id e, (s.swap_remove i).slot_map.entries[id]? = some e → e.loc = some i →
      (∃ mv, (MultiArena.swapRemoveList (s.instances.binAt i.bin) i.slot).2 = some mv ∧
        id = mv.ident.instanceId) ∨ s.slot_map.entries[id]? = some e) ∧
    (∀ id e loc, (s.swap_remove i).slot_map.entries[id]? = some e → e.loc = some loc →
      loc ≠ i →
      loc.slot < (s.swap_remove i).instances.bin_len loc.bin ∧
      (((s.swap_remove i).instances.binAt loc.bin).getD loc.slot default).ident.instanceId
        = id) ∧
    pointsBack (s.swap_remove i) ∧
    liveCount (s.swap_remove i) = liveCount s ∧
    recordCount (s.swap_remove i) + 1 = recordCount s ∧
    (s.swap_remove i).slot_map.freeList = s.slot_map.freeList ∧
    (∀ j, (∀ mv, (MultiArena.swapRemoveList (s.instances.binAt i.bin) i.slot).2 = some mv →
        j ≠ mv.ident.instanceId) →
      (s.swap_remove i).slot_map.entries[j]? = s.slot_map.entries[j]?) ∧
    (s.swap_remove i).instances.bin_len i.bin + 1 = s.instances.bin_len i.bin ∧
    (∀ b, b ≠ i.bin → (s.swap_remove i).instances.binAt b = s.instances.binAt b) ∧
    (i.slot < (s.swap_remove i).instances.bin_len i.bin →
      ∃ mv, (MultiArena.swapRemoveList (s.instances.binAt i.bin) i.slot).2 = some mv ∧
        ((s.swap_remove i).instances.binAt i.bin).getD i.slot default = mv) := by
  have hL : i.slot < (s.instances.binAt i.bin).length := hslot
  have hbin_i : (s.swap_remove i).instances.binAt i.bin
      = (MultiArena.swapRemoveList (s.instances.binAt i.bin) i.slot).1 := by
    rw [InstanceStore.swap_remove_instances, MultiArena.swap_remove_bins, if_pos rfl]
  have hbin_o : ∀ b, b ≠ i.bin →
      (s.swap_remove i).instances.binAt b = s.instances.binAt b := by
    intro b hb
    rw [InstanceStore.swap_remove_instances, MultiArena.swap_remove_bins, if_neg hb]
  have hlen_i : (s.swap_remove i).instances.bin_len i.bin + 1 = s.instances.bin_len i.bin := by
    rw [MultiArena.bin_len_eq, MultiArena.bin_len_eq, hbin_i,
      MultiArena.swapRemoveList_length _ _ hL]
    omega
  have hlen_o : ∀ b, b ≠ i.bin →
      (s.swap_remove i).instances.bin_len b = s.instances.bin_len b := by
    intro b hb
    rw [MultiArena.bin_len_eq, MultiArena.bin_len_eq, hbin_o b hb]
  have hget' : ∀ j, j + 1 < (s.instances.binAt i.bin).length →
      ((s.swap_remove i).instances.binAt i.bin).getD j default
        = (if j = i.slot
            then (s.instances.binAt i.bin).getD ((s.instances.binAt i.bin).length - 1) default
            else (s.instances.binAt i.bin).getD j default) := by
    intro j hj
    rw [hbin_i, List.getD_eq_getElem?_getD, MultiArena.swapRemoveList_getElem? _ _ hL j]
    by_cases hjs : j = i.slot
    · rw [if_pos ⟨hjs, hj⟩, if_pos hjs, List.getD_eq_getElem?_getD]
    · rw [if_neg (by tauto), if_pos hj, if_neg hjs, List.getD_eq_getElem?_getD]
  by_cases hmv : i.slot + 1 = (s.instances.binAt i.bin).length
  · -- the removed record is the last in its bin: nothing is moved
    have h2 : (s.instances.swap_remove_within_bin i).2 = none := by
      rw [MultiArena.swap_remove_snd, MultiArena.swapRemoveList_snd _ _ hL, if_pos hmv]
    have h2' : (MultiArena.swapRemoveList (s.instances.binAt i.bin) i.slot).2 = none := by
      rw [MultiArena.swapRemoveList_snd _ _ hL, if_pos hmv]
    have hsm : (s.swap_remove i).slot_map = s.slot_map := by
      rw [InstanceStore.swap_remove_def, h2]
    refine ⟨?_, ?_, ?_, by unfold liveCount; rw [hsm], ?_, by rw [hsm], ?_, hlen_i,
      hbin_o, ?_⟩
    · intro id e hme _
      right
      rw [hsm] at hme
      exact hme
    · intro id e loc hme hloc hlocne
      rw [hsm] at hme
      obtain ⟨hv, hmatch⟩ := hfw id e loc hme hloc
      have hne : ¬(loc.bin = i.bin ∧ loc.slot = i.slot) := by
        intro hh
        exact hlocne (by cases loc; cases i; simp at hh ⊢; exact hh)
      by_cases hlb : loc.bin = i.bin
      · have hlslt : loc.slot + 1 < (s.instances.binAt i.bin).length := by
          have hls : loc.slot ≠ i.slot := fun hh => hne ⟨hlb, hh⟩
          have : loc.slot < (s.instances.binAt i.bin).length := by
            rw [← hlb]
            exact hv
          by_cases hl2 : loc.slot + 1 = (s.instances.binAt i.bin).length
          · -- loc.slot is the last slot, which equals i.slot: contradiction
            exfalso
            apply hls
            omega
          · omega
        constructor
        · rw [hlb, MultiArena.bin_len_eq, hbin_i, MultiArena.swapRemoveList_length _ _ hL]
          omega
        · rw [hlb, hget' loc.slot hlslt, if_neg (fun hh => hne ⟨hlb, hh⟩)]
          rw [hlb] at hmatch
          exact hmatch
      · constructor
        · rw [hlen_o loc.bin hlb]
          exact hv
        · rw [hbin_o loc.bin hlb]
          exact hmatch
    · intro b sl hsl
      by_cases hlb : b = i.bin
      · have hsl2 : sl + 1 < (s.instances.binAt i.bin).length := by
          rw [hlb, MultiArena.bin_len_eq, hbin_i,
            MultiArena.swapRemoveList_length _ _ hL] at hsl
          omega
        have hslne : ¬(b = i.bin ∧ sl = i.slot) := by
          intro hh
          omega
        have hrec : ((s.swap_remove i).instances.binAt b).getD sl default
            = (s.instances.binAt b).getD sl default := by
          rw [hlb, hget' sl hsl2, if_neg (fun hh => hslne ⟨hlb, hh⟩)]
        rw [hrec, hsm]
        exact hbwX b sl (by rw [hlb]; rw [MultiArena.bin_len_eq]; omega) hslne
      · have hrec := hbin_o b hlb
        rw [hrec, hsm]
        exact hbwX b sl (by rw [← hlen_o b hlb]; exact hsl)
          (fun hh => hlb hh.1)
    · unfold recordCount
      rw [InstanceStore.swap_remove_instances]
      exact MultiArena.swap_recordSum s.instances i hslot
    · intro j _
      rw [hsm]
    · intro hcontra
      exfalso
      rw [MultiArena.bin_len_eq, hbin_i,
        MultiArena.swapRemoveList_length _ _ hL] at hcontra
      omega
  · -- the bin's last record is moved into the hole
    have hmvrec : (s.instances.binAt i.bin)[(s.instances.binAt i.bin).length - 1]?
        = some ((s.instances.binAt i.bin).getD
            ((s.instances.binAt i.bin).length - 1) default) := by
      rw [List.getD_eq_getElem?_getD, List.getElem?_eq_getElem (by omega)]
      rfl
    have h2' : (MultiArena.swapRemoveList (s.instances.binAt i.bin) i.slot).2
        = some ((s.instances.binAt i.bin).getD
            ((s.instances.binAt i.bin).length - 1) default) := by
      rw [MultiArena.swapRemoveList_snd _ _ hL, if_neg hmv]
      exact hmvrec
    have h2 : (s.instances.swap_remove_within_bin i).2
        = some ((s.instances.binAt i.bin).getD
            ((s.instances.binAt i.bin).length - 1) default) := by
      rw [MultiArena.swap_remove_snd]
      exact h2'
    have hsm : (s.swap_remove i).slot_map
        = s.slot_map.associate
            (((s.instances.binAt i.bin).getD
              ((s.instances.binAt i.bin).length - 1) default).ident.instanceId) i := by
      rw [InstanceStore.swap_remove_def, h2]
    -- the moved record's old entry
    have hmid := hbwX i.bin ((s.instances.binAt i.bin).length - 1)
      (by rw [MultiArena.bin_len_eq]; omega) (by omega)
    rw [SlotMap.trusted_eq_some] at hmid
    obtain ⟨em, hem, hemloc⟩ := hmid
    have hmid_lt := getElem?_some_lt _ _ _ hem
    have hmid_ne_slot : (⟨i.bin, (s.instances.binAt i.bin).length - 1⟩ : SlotIndices) ≠ i := by
      intro hh
      have := congrArg SlotIndices.slot hh
      simp at this
      omega
    have hEmid : (s.swap_remove i).slot_map.entries[(((s.instances.binAt i.bin).getD
        ((s.instances.binAt i.bin).length - 1) default).ident.instanceId)]?
        = some ⟨some i, em.version⟩ := by
      rw [hsm, SlotMap.associate_getElem?_self _ _ _ hmid_lt]
      have : s.slot_map.entries.getD (((s.instances.binAt i.bin).getD
          ((s.instances.binAt i.bin).length - 1) default).ident.instanceId) default = em := by
        rw [List.getD_eq_getElem?_getD, hem]
        rfl
      rw [this]
    have hEframe : ∀ j, j ≠ (((s.instances.binAt i.bin).getD
        ((s.instances.binAt i.bin).length - 1) default).ident.instanceId) →
        (s.swap_remove i).slot_map.entries[j]? = s.slot_map.entries[j]? := by
      intro j hj
      rw [hsm, SlotMap.associate_getElem?_ne _ _ _ _ hj]
    refine ⟨?_, ?_, ?_, ?_, ?_, by rw [hsm]; rfl, ?_, hlen_i, hbin_o, ?_⟩
    · intro id e hme hloc
      by_cases hid : id = (((s.instances.binAt i.bin).getD
          ((s.instances.binAt i.bin).length - 1) default).ident.instanceId)
      · left
        exact ⟨_, h2', hid⟩
      · right
        rw [hEframe id hid] at hme
        exact hme
    · intro id e loc hme hloc hlocne
      by_cases hid : id = (((s.instances.binAt i.bin).getD
          ((s.instances.binAt i.bin).length - 1) default).ident.instanceId)
      · exfalso
        rw [hid, hEmid] at hme
        have he : e = ⟨some i, em.version⟩ := (Option.some.inj hme).symm
        rw [he] at hloc
        exact hlocne (Option.some.inj hloc).symm
      · rw [hEframe id hid] at hme
        obtain ⟨hv, hmatch⟩ := hfw id e loc hme hloc
        by_cases hlb : loc.bin = i.bin
        · have hlsne2 : loc.slot ≠ (s.instances.binAt i.bin).length - 1 := by
            intro hh
            apply hid
            rw [← hmatch, hlb, hh]
          have hlsne : loc.slot ≠ i.slot := by
            intro hh
            apply hlocne
            cases loc
            cases i
            simp at hlb hh ⊢
            exact ⟨hlb, hh⟩
          have hlv : loc.slot < (s.instances.binAt i.bin).length := by
            rw [← hlb]
            exact hv
          constructor
          · rw [hlb, MultiArena.bin_len_eq, hbin_i,
              MultiArena.swapRemoveList_length _ _ hL]
            omega
          · rw [hlb, hget' loc.slot (by omega), if_neg hlsne]
            rw [hlb] at hmatch
            exact hmatch
        · constructor
          · rw [hlen_o loc.bin hlb]
            exact hv
          · rw [hbin_o loc.bin hlb]
            exact hmatch
    · intro b sl hsl
      by_cases hlb : b = i.bin
      · have hsl2 : sl + 1 < (s.instances.binAt i.bin).length := by
          rw [hlb, MultiArena.bin_len_eq, hbin_i,
            MultiArena.swapRemoveList_length _ _ hL] at hsl
          omega
        by_cases hss : sl = i.slot
        · -- the moved record now sits at the hole and points back to it
          have hrec : ((s.swap_remove i).instances.binAt b).getD sl default
              = (s.instances.binAt i.bin).getD
                  ((s.instances.binAt i.bin).length - 1) default := by
            rw [hlb, hget' sl hsl2, if_pos hss]
          rw [hrec, SlotMap.trusted_eq_some]
          refine ⟨⟨some i, em.version⟩, hEmid, ?_⟩
          rw [hlb, hss]
        · have hrec : ((s.swap_remove i).instances.binAt b).getD sl default
              = (s.instances.binAt b).getD sl default := by
            rw [hlb, hget' sl hsl2, if_neg hss]
          rw [hrec]
          have hold := hbwX b sl (by rw [hlb, MultiArena.bin_len_eq]; omega)
            (fun hh => hss hh.2)
          rw [SlotMap.trusted_eq_some] at hold ⊢
          obtain ⟨er, her, herloc⟩ := hold
          have hrne : ((s.instances.binAt b).getD sl default).ident.instanceId
              ≠ (((s.instances.binAt i.bin).getD
                ((s.instances.binAt i.bin).length - 1) default).ident.instanceId) := by
            intro hh
            rw [hh, hem] at her
            have : er = em := (Option.some.inj her).symm
            rw [this, hemloc] at herloc
            have := Option.some.inj herloc
            have h5 := congrArg SlotIndices.slot this
            simp at h5
            omega
          refine ⟨er, ?_, herloc⟩
          rw [hEframe _ hrne]
          exact her
      · have hrec := hbin_o b hlb
        rw [hrec]
        have hold := hbwX b sl (by rw [← hlen_o b hlb]; exact hsl)
          (fun hh => hlb hh.1)
        rw [SlotMap.trusted_eq_some] at hold ⊢
        obtain ⟨er, her, herloc⟩ := hold
        have hrne : ((s.instances.binAt b).getD sl default).ident.instanceId
            ≠ (((s.instances.binAt i.bin).getD
              ((s.instances.binAt i.bin).length - 1) default).ident.instanceId) := by
          intro hh
          rw [hh, hem] at her
          have : er = em := (Option.some.inj her).symm
          rw [this, hemloc] at herloc
          have h5 := congrArg SlotIndices.bin (Option.some.inj herloc)
          simp at h5
          exact hlb h5.symm
        refine ⟨er, ?_, herloc⟩
        rw [hEframe _ hrne]
        exact her
    · show (s.swap_remove i).slot_map.entries.countP _ = _
      rw [hsm]
      exact liveCount_associate_occupied _ _ _ em hem (by rw [hemloc]; rfl)
    · unfold recordCount
      rw [InstanceStore.swap_remove_instances]
      exact MultiArena.swap_recordSum s.instances i hslot
    · intro j hj
      exact hEframe j (hj _ h2')
    · intro _
      exact ⟨_, h2', by rw [hget' i.slot (by omega), if_pos rfl]⟩

/-- When the swap moved a record, that record came from the tail of the
bin, so its slot entry (before the swap) points at the old tail position. -/
lemma moved_entry (s : InstanceStore) (i : SlotIndices)
    (hbwX : ∀ b sl, sl < s.instances.bin_len b → ¬(b = i.bin ∧ sl = i.slot) →
      s.slot_map.indices_of_no_version_check
        (((s.instances.binAt b).getD sl default).ident.instanceId) = some ⟨b, sl⟩)
    (hslot : i.slot < s.instances.bin_len i.bin) :
    ∀ mv, (MultiArena.swapRemoveList (s.instances.binAt i.bin) i.slot).2 = some mv →
      ∃ em, s.slot_map.entries[mv.ident.instanceId]? = some em ∧
        em.loc = some ⟨i.bin, (s.instances.binAt i.bin).length - 1⟩ ∧
        i.slot + 1 ≠ (s.instances.binAt i.bin).length := by
  intro mv hmv2
  have hL : i.slot < (s.instances.binAt i.bin).length := hslot
  have hsnd := MultiArena.swapRemoveList_snd (s.instances.binAt i.bin) i.slot hL
  rw [hmv2] at hsnd
  by_cases hend : i.slot + 1 = (s.instances.binAt i.bin).length
  · rw [if_pos hend] at hsnd
    cases hsnd
  · rw [if_neg hend] at hsnd
    have hmvget : (s.instances.binAt i.bin).getD
        ((s.instances.binAt i.bin).length - 1) default = mv := by
      rw [List.getD_eq_getElem?_getD, ← hsnd]
      rfl
    have hb := hbwX i.bin ((s.instances.binAt i.bin).length - 1)
      (by rw [MultiArena.bin_len_eq]; omega) (by omega)
    rw [hmvget, SlotMap.trusted_eq_some] at hb
    obtain ⟨em, hem, hemloc⟩ := hb
    exact ⟨em, hem, hemloc, hend⟩

/-! ### Well-formedness preservation by remove -/

theorem remove_WF (s : InstanceStore) (id : RawID) (s' : InstanceStore)
    (h : StoreWF s) (hr : s.remove id = some s') : StoreWF s' := by
  unfold InstanceStore.remove at hr
  rcases hres : s.slot_map.indices_of_no_version_check id.instanceId with _ | i
  · rw [hres] at hr
    cases hr
  rw [hres] at hr
  have hs' : s' = s.remove_at_index i id := (Option.some.inj hr).symm
  subst hs'
  rw [SlotMap.trusted_eq_some] at hres
  obtain ⟨e, hmem, hloc⟩ := hres
  obtain ⟨hslot, hmatch⟩ := h.forward id.instanceId e i hmem hloc
  obtain ⟨hat_i, hlm, hpb, hlive, hrec, hfl2, hframe, hlen2, hbino, hhole⟩ :=
    swap_core s i h.forward (fun b sl h1 _ => h.backward b sl h1) hslot
  have hmvE := moved_entry s i (fun b sl h1 _ => h.backward b sl h1) hslot
  have hmv_ne_idn : ∀ mv,
      (MultiArena.swapRemoveList (s.instances.binAt i.bin) i.slot).2 = some mv →
      id.instanceId ≠ mv.ident.instanceId := by
    intro mv hmv2 hh
    obtain ⟨em, hem, hemloc, hend⟩ := hmvE mv hmv2
    rw [← hh, hmem] at hem
    have he2 : em = e := (Option.some.inj hem).symm
    rw [he2, hloc] at hemloc
    have h5 := congrArg SlotIndices.slot (Option.some.inj hemloc)
    simp at h5
    rw [MultiArena.bin_len_eq] at hslot
    omega
  have hE'idn : (s.swap_remove i).slot_map.entries[id.instanceId]? = some e := by
    rw [hframe _ hmv_ne_idn]
    exact hmem
  have hlen' : (s.swap_remove i).slot_map.entries.length = s.slot_map.entries.length :=
    s.swap_remove_entries_length i
  have hidn_lt : id.instanceId < s.slot_map.entries.length := getElem?_some_lt _ _ _ hmem
  have hgd' : (s.swap_remove i).slot_map.entries.getD id.instanceId default = e := by
    rw [List.getD_eq_getElem?_getD, hE'idn]
    rfl
  have hFself : (s.remove_at_index i id).slot_map.entries[id.instanceId]?
      = some ⟨none, e.version + 1⟩ := by
    show ((s.swap_remove i).slot_map.free id.instanceId id.version).entries[_]? = _
    rw [SlotMap.free_getElem?_self _ _ _ (by omega), hgd']
  have hFframe : ∀ j, j ≠ id.instanceId →
      (s.remove_at_index i id).slot_map.entries[j]?
        = (s.swap_remove i).slot_map.entries[j]? := by
    intro j hj
    show ((s.swap_remove i).slot_map.free id.instanceId id.version).entries[j]? = _
    rw [SlotMap.free_getElem?_ne _ _ _ _ hj]
  constructor
  · -- forward: the freed entry is vacuous; everything else still matches
    intro jd e2 loc2 hme2 hloc2
    by_cases hj : jd = id.instanceId
    · rw [hj, hFself] at hme2
      have he2 : e2 = ⟨none, e.version + 1⟩ := (Option.some.inj hme2).symm
      rw [he2] at hloc2
      cases hloc2
    · rw [hFframe jd hj] at hme2
      by_cases hloc2i : loc2 = i
      · rcases hat_i jd e2 hme2 (by rw [← hloc2i]; exact hloc2) with ⟨mv, hmv2, hjd⟩ | hold
        · obtain ⟨em, hem, hemloc, hend⟩ := hmvE mv hmv2
          have hvalid : i.slot < (s.swap_remove i).instances.bin_len i.bin := by
            have hl2' : (s.swap_remove i).instances.bin_len i.bin + 1
                = (s.instances.binAt i.bin).length := hlen2
            have hsl0 : i.slot < (s.instances.binAt i.bin).length := hslot
            omega
          obtain ⟨mv2, hmv2', hrecord⟩ := hhole hvalid
          have hmveq : mv2 = mv := by
            rw [hmv2] at hmv2'
            exact (Option.some.inj hmv2').symm
          rw [hloc2i]
          refine ⟨hvalid, ?_⟩
          show (((s.swap_remove i).instances.binAt i.bin).getD i.slot
            default).ident.instanceId = jd
          rw [hrecord, hmveq, ← hjd]
        · exfalso
          obtain ⟨_, hm2⟩ := h.forward jd e2 i hold (by rw [← hloc2i]; exact hloc2)
          exact hj (hm2.symm.trans hmatch)
      · obtain ⟨hv2, hm2⟩ := hlm jd e2 loc2 hme2 hloc2 hloc2i
        exact ⟨hv2, hm2⟩
  · -- backward
    intro b sl hsl
    have hsl' : sl < (s.swap_remove i).instances.bin_len b := hsl
    have hp := hpb b sl hsl'
    rw [SlotMap.trusted_eq_some] at hp
    obtain ⟨er, her, herloc⟩ := hp
    have hrne : (((s.swap_remove i).instances.binAt b).getD sl
        default).ident.instanceId ≠ id.instanceId := by
      intro hh
      rw [hh, hE'idn] at her
      have her2 : er = e := (Option.some.inj her).symm
      rw [her2, hloc] at herloc
      have hbs : i = (⟨b, sl⟩ : SlotIndices) := Option.some.inj herloc
      have hbb : i.bin = b := congrArg SlotIndices.bin hbs
      have hss : i.slot = sl := congrArg SlotIndices.slot hbs
      have hvalid : i.slot < (s.swap_remove i).instances.bin_len i.bin := by
        rw [hbb, hss]
        exact hsl'
      obtain ⟨mv2, hmv2', hrecord⟩ := hhole hvalid
      apply hmv_ne_idn mv2 hmv2'
      rw [← hh]
      show (((s.swap_remove i).instances.binAt b).getD sl default).ident.instanceId
        = mv2.ident.instanceId
      rw [← hbb, ← hss, hrecord]
    show SlotMap.indices_of_no_version_check _ _ = _
    rw [SlotMap.trusted_eq_some]
    refine ⟨er, ?_, herloc⟩
    show (s.remove_at_index i id).slot_map.entries[(((s.swap_remove
      i).instances.binAt b).getD sl default).ident.instanceId]? = some er
    rw [hFframe _ hrne]
    exact her
  · -- free list entries are free
    intro f hf
    have hf2 : f ∈ id.instanceId :: (s.swap_remove i).slot_map.freeList := hf
    rcases List.mem_cons.mp hf2 with hfe | hft
    · exact ⟨⟨none, e.version + 1⟩, by rw [hfe]; exact hFself, rfl⟩
    · rw [hfl2] at hft
      obtain ⟨e2, he2, he2loc⟩ := h.free_wf f hft
      have hfne_idn : f ≠ id.instanceId := by
        intro hh
        rw [hh, hmem] at he2
        have : e2 = e := (Option.some.inj he2).symm
        rw [this, hloc] at he2loc
        cases he2loc
      have hfne_mv : ∀ mv,
          (MultiArena.swapRemoveList (s.instances.binAt i.bin) i.slot).2 = some mv →
          f ≠ mv.ident.instanceId := by
        intro mv hmv2 hh
        obtain ⟨em, hem, hemloc, _⟩ := hmvE mv hmv2
        rw [hh, hem] at he2
        have : e2 = em := (Option.some.inj he2).symm
        rw [this, hemloc] at he2loc
        cases he2loc
      refine ⟨e2, ?_, he2loc⟩
      rw [hFframe f hfne_idn, hframe f hfne_mv]
      exact he2
  · -- free list has no duplicates
    show (id.instanceId :: (s.swap_remove i).slot_map.freeList).Nodup
    rw [List.nodup_cons, hfl2]
    constructor
    · intro hmem2
      obtain ⟨e2, he2, he2loc⟩ := h.free_wf _ hmem2
      rw [hmem] at he2
      have : e2 = e := (Option.some.inj he2).symm
      rw [this, hloc] at he2loc
      cases he2loc
    · exact h.free_nodup
  · -- the counter tracks the occupied entries
    have hlf : liveCount (s.remove_at_index i id) + 1 = liveCount (s.swap_remove i) := by
      show ((s.swap_remove i).slot_map.free id.instanceId id.version).entries.countP _
        + 1 = _
      exact liveCount_free_occupied _ _ _ e hE'idn (by rw [hloc]; rfl)
    have hn1 : (s.remove_at_index i id).n_instances = s.n_instances - 1 :=
      s.remove_at_index_n i id
    have hpos : 0 < liveCount s := by
      unfold liveCount
      rw [List.countP_pos_iff]
      exact ⟨e, mem_of_getElem?_some _ _ _ hmem, by rw [hloc]; rfl⟩
    rw [hn1, h.count_live]
    omega
  · -- the occupied entries track the records
    have hlf : liveCount (s.remove_at_index i id) + 1 = liveCount (s.swap_remove i) := by
      show ((s.swap_remove i).slot_map.free id.instanceId id.version).entries.countP _
        + 1 = _
      exact liveCount_free_occupied _ _ _ e hE'idn (by rw [hloc]; rfl)
    have hrc : recordCount (s.remove_at_index i id) = recordCount (s.swap_remove i) := rfl
    have hpos : 0 < liveCount s := by
      unfold liveCount
      rw [List.countP_pos_iff]
      exact ⟨e, mem_of_getElem?_some _ _ _ hmem, by rw [hloc]; rfl⟩
    have hcr := h.count_rec
    rw [hrc]
    omega

/-! ### Well-formedness: adding under an occupied instance number (resize) -/

lemma add_occupied_WF (s : InstanceStore) (x : Actor) (e : SlotEntry) (loc0 : SlotIndices)
    (hfw : locationsMatch s)
    (hbw : pointsBack s)
    (hmem : s.slot_map.entries[x.ident.instanceId]? = some e)
    (hloc : e.loc = some loc0)
    (hv0 : loc0.slot < s.instances.bin_len loc0.bin) :
    locationsMatch (s.add x) ∧
    (∀ b sl, sl < (s.add x).instances.bin_len b → ¬(b = loc0.bin ∧ sl = loc0.slot) →
      (s.add x).slot_map.indices_of_no_version_check
        (((s.add x).instances.binAt b).getD sl default).ident.instanceId
        = some ⟨b, sl⟩) ∧
    liveCount (s.add x) = liveCount s ∧
    recordCount (s.add x) = recordCount s + 1 ∧
    (∀ j, j ≠ x.ident.instanceId →
      (s.add x).slot_map.entries[j]? = s.slot_map.entries[j]?) ∧
    (s.add x).slot_map.freeList = s.slot_map.freeList ∧
    (s.add x).slot_map.entries[x.ident.instanceId]? =
      some ⟨some (s.instances.push (compact_behind x)).2, e.version⟩ ∧
    (s.instances.push (compact_behind x)).2 ≠ loc0 ∧
    (∀ b, s.instances.bin_len b ≤ (s.add x).instances.bin_len b) := by
  obtain ⟨hvmem, _⟩ := hfw x.ident.instanceId e loc0 hmem hloc
  have hlt : x.ident.instanceId < s.slot_map.entries.length := getElem?_some_lt _ _ _ hmem
  obtain ⟨c, hidx, hbins, hblen⟩ := MultiArena.push_spec s.instances (compact_behind x)
  have hgdmem : s.slot_map.entries.getD x.ident.instanceId default = e := by
    rw [List.getD_eq_getElem?_getD, hmem]
    rfl
  have hEself : (s.add x).slot_map.entries[x.ident.instanceId]? =
      some ⟨some (s.instances.push (compact_behind x)).2, e.version⟩ := by
    rw [InstanceStore.add_slot_map, SlotMap.associate_getElem?_self _ _ _ hlt, hgdmem]
  have hEframe : ∀ j, j ≠ x.ident.instanceId →
      (s.add x).slot_map.entries[j]? = s.slot_map.entries[j]? := by
    intro j hj
    rw [InstanceStore.add_slot_map, SlotMap.associate_getElem?_ne _ _ _ _ hj]
  have hb1 : ∀ b, (s.add x).instances.binAt b
      = s.instances.binAt b ++ (if b = c then [compact_behind x] else []) := by
    intro b
    rw [InstanceStore.add_instances]
    exact hbins b
  have hblen2 : ∀ b, (s.add x).instances.bin_len b
      = s.instances.bin_len b + (if b = c then 1 else 0) := by
    intro b
    rw [MultiArena.bin_len_eq, MultiArena.bin_len_eq, hb1 b, List.length_append]
    by_cases hbc : b = c <;> simp [hbc]
  have hgetD_lt : ∀ b sl, sl < s.instances.bin_len b →
      ((s.add x).instances.binAt b).getD sl default
        = (s.instances.binAt b).getD sl default := by
    intro b sl hsl
    rw [MultiArena.bin_len_eq] at hsl
    rw [hb1 b]
    by_cases hbc : b = c
    · rw [if_pos hbc, getD_append_single, if_pos hsl]
    · simp [hbc]
  have hgetD_new : ((s.add x).instances.binAt c).getD (s.instances.bin_len c) default
      = compact_behind x := by
    rw [hb1 c, if_pos rfl, getD_append_single, MultiArena.bin_len_eq,
      if_neg (by omega), if_pos rfl]
  have hidx_ne : (s.instances.push (compact_behind x)).2 ≠ loc0 := by
    rw [hidx]
    intro hh
    have hbb := congrArg SlotIndices.bin hh
    have hss := congrArg SlotIndices.slot hh
    simp at hbb hss
    rw [← hbb] at hv0
    omega
  refine ⟨?_, ?_, ?_, ?_, hEframe, rfl, hEself, hidx_ne, ?_⟩
  · intro id2 e2 loc2 hme2 hloc2
    by_cases hid : id2 = x.ident.instanceId
    · rw [hid, hEself] at hme2
      have he2 : e2 = ⟨some (s.instances.push (compact_behind x)).2, e.version⟩ :=
        (Option.some.inj hme2).symm
      rw [he2] at hloc2
      have hl2 : loc2 = (s.instances.push (compact_behind x)).2 :=
        (Option.some.inj hloc2).symm
      rw [hl2, hidx, hid]
      constructor
      · show s.instances.bin_len c < (s.add x).instances.bin_len c
        rw [hblen2 c, if_pos rfl]
        omega
      · show (((s.add x).instances.binAt c).getD (s.instances.bin_len c)
          default).ident.instanceId = x.ident.instanceId
        rw [hgetD_new, compact_behind_ident]
    · rw [hEframe id2 hid] at hme2
      obtain ⟨h1, h2⟩ := hfw id2 e2 loc2 hme2 hloc2
      constructor
      · rw [hblen2 loc2.bin]
        omega
      · rw [hgetD_lt _ _ h1]
        exact h2
  · intro b sl hsl hnot0
    rw [hblen2 b] at hsl
    by_cases hnew : b = c ∧ sl = s.instances.bin_len c
    · obtain ⟨hb, hs2⟩ := hnew
      rw [hb, hs2, hgetD_new, compact_behind_ident, SlotMap.trusted_eq_some]
      refine ⟨_, hEself, ?_⟩
      show some (s.instances.push (compact_behind x)).2 = _
      rw [hidx]
    · have hslb : sl < s.instances.bin_len b := by
        by_cases hbc : b = c
        · have hne : sl ≠ s.instances.bin_len c := fun hh => hnew ⟨hbc, hh⟩
          rw [if_pos hbc] at hsl
          rw [hbc] at hsl ⊢
          omega
        · rw [if_neg hbc] at hsl
          omega
      rw [hgetD_lt _ _ hslb]
      have hold := hbw b sl hslb
      rw [SlotMap.trusted_eq_some] at hold
      obtain ⟨er, her, herloc⟩ := hold
      have hrne : ((s.instances.binAt b).getD sl default).ident.instanceId
          ≠ x.ident.instanceId := by
        intro hh
        rw [hh, hmem] at her
        have her2 : er = e := (Option.some.inj her).symm
        rw [her2, hloc] at herloc
        have hbs : loc0 = (⟨b, sl⟩ : SlotIndices) := Option.some.inj herloc
        exact hnot0 ⟨(congrArg SlotIndices.bin hbs).symm,
          (congrArg SlotIndices.slot hbs).symm⟩
      rw [SlotMap.trusted_eq_some]
      refine ⟨er, ?_, herloc⟩
      rw [hEframe _ hrne]
      exact her
  · have hEeq : (s.add x).slot_map.entries
        = s.slot_map.entries.set x.ident.instanceId
            ⟨some (s.instances.push (compact_behind x)).2, e.version⟩ := by
      rw [InstanceStore.add_slot_map]
      unfold SlotMap.associate
      rw [hgdmem]
    unfold liveCount
    rw [hEeq]
    have hcc := countP_set_entry s.slot_map.entries x.ident.instanceId
      ⟨some (s.instances.push (compact_behind x)).2, e.version⟩ e hmem
    rw [if_pos (by rw [hloc]; rfl), if_pos (by rfl)] at hcc
    omega
  · unfold recordCount
    rw [InstanceStore.add_instances]
    exact MultiArena.push_recordSum s.instances (compact_behind x)
  · intro b
    rw [hblen2 b]
    omega

/-! ### Well-formedness preservation by resize -/

theorem resize_WF (s : InstanceStore) (idn : Nat) (s' : InstanceStore)
    (h : StoreWF s) (hr : s.resize idn = some s') : StoreWF s' := by
  unfold InstanceStore.resize at hr
  rcases hres : s.slot_map.indices_of_no_version_check idn with _ | i
  · rw [hres] at hr
    cases hr
  rw [hres] at hr
  have hs' : s' = s.resize_at_index i := (Option.some.inj hr).symm
  subst hs'
  rw [SlotMap.trusted_eq_some] at hres
  obtain ⟨e, hmem, hloc⟩ := hres
  obtain ⟨hslot, hmatch⟩ := h.forward idn e i hmem hloc
  -- the record being re-placed
  have hra : s.resize_at_index i
      = (s.add ((s.instances.binAt i.bin).getD i.slot default)).swap_remove i := rfl
  have hmem' : s.slot_map.entries[((s.instances.binAt i.bin).getD i.slot
      default).ident.instanceId]? = some e := by
    rw [hmatch]
    exact hmem
  obtain ⟨k_fw, k_bwX, k_live, k_rec, k_frame, k_fl, k_self, k_idx_ne, k_mono⟩ :=
    add_occupied_WF s ((s.instances.binAt i.bin).getD i.slot default) e i
      h.forward h.backward hmem' hloc hslot
  have hslot1 : i.slot <
      (s.add ((s.instances.binAt i.bin).getD i.slot default)).instances.bin_len i.bin :=
    Nat.lt_of_lt_of_le hslot (k_mono i.bin)
  obtain ⟨c_at_i, c_lm, c_pb, c_live, c_rec, c_fl, c_frame, c_len, c_bino, c_hole⟩ :=
    swap_core (s.add ((s.instances.binAt i.bin).getD i.slot default)) i
      k_fw k_bwX hslot1
  have hmvE1 := moved_entry (s.add ((s.instances.binAt i.bin).getD i.slot default)) i
    k_bwX hslot1
  rw [hra]
  constructor
  · -- forward
    intro jd e2 loc2 hme2 hloc2
    by_cases hloc2i : loc2 = i
    · rcases c_at_i jd e2 hme2 (by rw [← hloc2i]; exact hloc2) with ⟨mv, hmv2, hjd⟩ | hold1
      · obtain ⟨em, hem, hemloc, hend⟩ := hmvE1 mv hmv2
        have hvalid : i.slot < ((s.add ((s.instances.binAt i.bin).getD i.slot
            default)).swap_remove i).instances.bin_len i.bin := by
          have hc1 : ((s.add ((s.instances.binAt i.bin).getD i.slot
              default)).swap_remove i).instances.bin_len i.bin + 1
              = ((s.add ((s.instances.binAt i.bin).getD i.slot
                default)).instances.binAt i.bin).length := c_len
          have hsl0 : i.slot < ((s.add ((s.instances.binAt i.bin).getD i.slot
              default)).instances.binAt i.bin).length := hslot1
          omega
        obtain ⟨mv2, hmv2', hrecord⟩ := c_hole hvalid
        have hmveq : mv2 = mv := by
          rw [hmv2] at hmv2'
          exact (Option.some.inj hmv2').symm
        rw [hloc2i]
        refine ⟨hvalid, ?_⟩
        rw [hrecord, hmveq, ← hjd]
      · -- an entry of the intermediate store pointing at the hole cannot exist
        exfalso
        by_cases hjdn : jd = ((s.instances.binAt i.bin).getD i.slot
            default).ident.instanceId
        · rw [hjdn, k_self] at hold1
          have he2 : e2 = ⟨some (s.instances.push (compact_behind
              ((s.instances.binAt i.bin).getD i.slot default))).2, e.version⟩ :=
            (Option.some.inj hold1).symm
          rw [he2] at hloc2
          apply k_idx_ne
          have h9 : some (s.instances.push (compact_behind ((s.instances.binAt
              i.bin).getD i.slot default))).2 = some loc2 := hloc2
          rw [hloc2i] at h9
          exact Option.some.inj h9
        · rw [k_frame jd hjdn] at hold1
          obtain ⟨_, hm2⟩ := h.forward jd e2 i hold1 (by rw [← hloc2i]; exact hloc2)
          exact hjdn hm2.symm
    · exact c_lm jd e2 loc2 hme2 hloc2 hloc2i
  · -- backward
    exact c_pb
  · -- free list entries are free
    intro f hf
    have hf2 : f ∈ s.slot_map.freeList := by
      have hfa : f ∈ (s.add ((s.instances.binAt i.bin).getD i.slot
          default)).slot_map.freeList := by
        rw [← c_fl]
        exact hf
      rw [k_fl] at hfa
      exact hfa
    obtain ⟨e2, he2, he2loc⟩ := h.free_wf f hf2
    have hfne_idn : f ≠ ((s.instances.binAt i.bin).getD i.slot
        default).ident.instanceId := by
      intro hh
      rw [hh, hmem'] at he2
      have : e2 = e := (Option.some.inj he2).symm
      rw [this, hloc] at he2loc
      cases he2loc
    have he2' : (s.add ((s.instances.binAt i.bin).getD i.slot
        default)).slot_map.entries[f]? = some e2 := by
      rw [k_frame f hfne_idn]
      exact he2
    have hfne_mv : ∀ mv,
        (MultiArena.swapRemoveList ((s.add ((s.instances.binAt i.bin).getD i.slot
          default)).instances.binAt i.bin) i.slot).2 = some mv →
        f ≠ mv.ident.instanceId := by
      intro mv hmv2 hh
      obtain ⟨em, hem, hemloc, _⟩ := hmvE1 mv hmv2
      rw [hh, hem] at he2'
      have : e2 = em := (Option.some.inj he2').symm
      rw [this, hemloc] at he2loc
      cases he2loc
    refine ⟨e2, ?_, he2loc⟩
    rw [c_frame f hfne_mv]
    exact he2'
  · -- free list has no duplicates
    have : ((s.add ((s.instances.binAt i.bin).getD i.slot
        default)).swap_remove i).slot_map.freeList = s.slot_map.freeList := by
      rw [c_fl, k_fl]
    rw [this]
    exact h.free_nodup
  · -- the counter tracks the occupied entries
    have hn : ((s.add ((s.instances.binAt i.bin).getD i.slot
        default)).swap_remove i).n_instances = s.n_instances := by
      rw [InstanceStore.swap_remove_n, InstanceStore.add_n]
    rw [hn, c_live, k_live]
    exact h.count_live
  · -- the occupied entries track the records
    rw [c_live, k_live]
    have := h.count_rec
    omega

/-! ### Preservation along operation sequences -/

theorem execOp_WF (s : InstanceStore) (op : StoreOp) (s' : InstanceStore)
    (h : StoreWF s) (hr : execOp s op = some s') : StoreWF s' := by
  cases op with
  | add t =>
      have hs' : s' = s.spawn t := (Option.some.inj hr).symm
      rw [hs']
      exact spawn_WF s t h
  | resize idn => exact resize_WF s idn s' h hr
  | remove id => exact remove_WF s id s' h hr

theorem execOps_WF : ∀ (ops : List StoreOp) (s s' : InstanceStore),
    StoreWF s → execOps s ops = some s' → StoreWF s' := by
  intro ops
  induction ops with
  | nil =>
      intro s s' h hr
      have : s' = s := (Option.some.inj hr).symm
      rw [this]
      exact h
  | cons op rest ih =>
      intro s s' h hr
      unfold execOps at hr
      rcases h1 : execOp s op with _ | s1
      · rw [h1] at hr
        cases hr
      · rw [h1] at hr
        exact ih s1 s' (execOp_WF s op s1 h h1) hr

/-! ### Claim C1: the instance counter always equals the live count -/

/-- C1: starting from a fresh store, after any sequence of top-level add,
resize and remove operations that completes without a panic, the stored
instance count equals the number of occupied slot entries, which in turn
equals the number of records held in the arena; since every prefix of an
operation sequence is itself such a sequence, the counts agree at every
observation point between operations. -/
theorem claim_C1 : ∀ (typical : Nat) (ops : List StoreOp) (s' : InstanceStore),
    execOps (InstanceStore.new typical) ops = some s' →
    s'.n_instances = liveCount s' ∧ liveCount s' = recordCount s' := by
  intro typical ops s' hr
  have h := execOps_WF ops (InstanceStore.new typical) s' (new_WF typical) hr
  exact ⟨h.count_live, h.count_rec⟩

/-- Witness for C1: the concrete sequence opsC1 runs without panic and the
resulting counter equals both counts. -/
theorem claim_C1_witness :
    execOps (InstanceStore.new 8) opsC1 = some storeC1 ∧
    (storeC1.n_instances = liveCount storeC1 ∧
      liveCount storeC1 = recordCount storeC1) :=
  ⟨by decide, claim_C1 8 opsC1 storeC1 (by decide)⟩

/-! ### Claim C8: every occupied slot entry matches its record -/

/-- C8: starting from a fresh store, after any panic-free sequence of
top-level add, resize and remove operations, every occupied slot entry's
location points to a valid record whose self-reported identity matches the
entry's instance number; in particular, whenever swap_remove moved the
bin's last record into the removed record's place, the moved record's slot
entry was immediately re-associated with that place. -/
theorem claim_C8 : ∀ (typical : Nat) (ops : List StoreOp) (s' : InstanceStore),
    execOps (InstanceStore.new typical) ops = some s' → locationsMatch s' := by
  intro typical ops s' hr
  exact (execOps_WF ops (InstanceStore.new typical) s' (new_WF typical) hr).forward

/-- Witness for C8: the concrete sequence opsC8 runs without panic and the
resulting store satisfies the matching invariant. -/
theorem claim_C8_witness :
    execOps (InstanceStore.new 8) opsC8 = some storeC8 ∧ locationsMatch storeC8 :=
  ⟨by decide, claim_C8 8 opsC8 storeC8 (by decide)⟩

/-- Witness for C5: delivering to instance number 2 of the concrete store
resolves to slot (0, 1); its handler reports alive-and-self-contained, so
the only change is the in-place record update. -/
theorem claim_C5_witness :
    storeABC.at_mut (RawID.mk 7 2 0 0).instanceId (RawID.mk 7 2 0 0).version
      = some ⟨0, 1⟩ ∧
    storeABC.receive_instance ⟨7, 2, 0, 0⟩ handlerC3 =
      some ({ storeABC with instances := (storeABC.instances.setAt ⟨0, 1⟩
        (handlerC3 (storeABC.at_index_mut ⟨0, 1⟩)).updated) }, true) :=
  ⟨by decide, (claim_C5 storeABC ⟨7, 2, 0, 0⟩ handlerC3 ⟨0, 1⟩ (by decide)).1
    (by decide) (by decide) (by decide)⟩

/-- Witness for C6: a handle for instance number 2 with the stale version 5
does not resolve and leaves the concrete store untouched. -/
theorem claim_C6_witness :
    storeABC.slot_map.indices_of (RawID.mk 7 2 0 5).instanceId
      (RawID.mk 7 2 0 5).version = none ∧
    storeABC.receive_instance ⟨7, 2, 0, 5⟩ handlerC3 = some (storeABC, false) :=
  claim_C6 storeABC ⟨7, 2, 0, 5⟩ handlerC3 (by
    intro e he
    have h0 : storeABC.slot_map.entries[(RawID.mk 7 2 0 5).instanceId]?
        = some (⟨some ⟨0, 1⟩, 0⟩ : SlotEntry) := by decide
    rw [h0] at he
    have h1 : e = ⟨some ⟨0, 1⟩, 0⟩ := (Option.some.inj he).symm
    rw [h1]
    right
    decide)

/-- Witness for C9: a handle for instance number 3 with the stale version 9
fails the defensive lookup yet remove still removes the occupant. -/
theorem claim_C9_witness :
    storeABC.slot_map.entries[(RawID.mk 7 3 0 9).instanceId]?
      = some ⟨some ⟨0, 2⟩, 0⟩ ∧
    storeABC.remove ⟨7, 3, 0, 9⟩
      = some (storeABC.remove_at_index ⟨0, 2⟩ ⟨7, 3, 0, 9⟩) ∧
    (storeABC.remove_at_index ⟨0, 2⟩ ⟨7, 3, 0, 9⟩).n_instances
      = storeABC.n_instances - 1 :=
  ⟨by decide,
    (claim_C9 storeABC ⟨7, 3, 0, 9⟩ ⟨some ⟨0, 2⟩, 0⟩ ⟨0, 2⟩ (by decide) (by decide)
      (by decide) (by decide)).2.1,
    (claim_C9 storeABC ⟨7, 3, 0, 9⟩ ⟨some ⟨0, 2⟩, 0⟩ ⟨0, 2⟩ (by decide) (by decide)
      (by decide) (by decide)).2.2.2.2.1⟩

/-- Witness for C10: resizing instance number 2 of the concrete store
resolves to slot (0, 1) and leaves the counter unchanged. -/
theorem claim_C10_witness :
    storeABC.slot_map.indices_of_no_version_check 2 = some ⟨0, 1⟩ ∧
    (storeABC.resize_at_index ⟨0, 1⟩).n_instances = storeABC.n_instances :=
  ⟨by decide, (claim_C10 storeABC 2 ⟨0, 1⟩ (by decide) (by decide)).2.1⟩

/-! ### Slices of bins as multisets -/

lemma sliceList_getElem? (l : List Actor) (a b j : Nat) :
    ((l.drop a).take (b - a))[j]? = if j < b - a then l[a + j]? else none := by
  rw [List.getElem?_take]
  by_cases hj : j < b - a
  · rw [if_pos hj, if_pos hj, List.getElem?_drop]
  · rw [if_neg hj, if_neg hj]

lemma sliceList_congr (l1 l2 : List Actor) (a b : Nat)
    (h : ∀ j, a ≤ j → j < b → l1[j]? = l2[j]?) :
    (l1.drop a).take (b - a) = (l2.drop a).take (b - a) := by
  apply List.ext_getElem?
  intro j
  rw [sliceList_getElem?, sliceList_getElem?]
  by_cases hj : j < b - a
  · rw [if_pos hj, if_pos hj]
    exact h (a + j) (Nat.le_add_right a j) (by omega)
  · rw [if_neg hj, if_neg hj]

lemma sliceM_congr (l1 l2 : List Actor) (a b : Nat)
    (h : ∀ j, a ≤ j → j < b → l1[j]? = l2[j]?) :
    sliceM l1 a b = sliceM l2 a b := by
  unfold sliceM
  rw [sliceList_congr l1 l2 a b h]

lemma sliceM_empty (l : List Actor) (a b : Nat) (h : b ≤ a) : sliceM l a b = 0 := by
  unfold sliceM
  have : b - a = 0 := by omega
  rw [this]
  rfl

lemma sliceM_cons (l : List Actor) (a b : Nat) (h1 : a < b) (h2 : a < l.length) :
    sliceM l a b = (l.getD a default) ::ₘ sliceM l (a + 1) b := by
  unfold sliceM
  rw [List.drop_eq_getElem_cons h2]
  have hb : b - a = (b - (a + 1)) + 1 := by omega
  rw [hb]
  show ((l[a] :: (List.drop (a+1) l)).take ((b - (a+1)) + 1) : Multiset Actor) = _
  rw [List.take_succ_cons]
  have hget : l.getD a default = l[a] := by
    rw [List.getD_eq_getElem?_getD, List.getElem?_eq_getElem h2]
    rfl
  rw [hget]
  exact (Multiset.cons_coe _ _).symm

lemma sliceM_snoc (l : List Actor) (a b : Nat) (h1 : a ≤ b) (h2 : b < l.length) :
    sliceM l a (b + 1) = (l.getD b default) ::ₘ sliceM l a b := by
  unfold sliceM
  have hb : b + 1 - a = (b - a) + 1 := by omega
  rw [hb, List.take_succ]
  have hget : (l.drop a)[b - a]? = some (l.getD b default) := by
    rw [List.getElem?_drop]
    have : a + (b - a) = b := by omega
    rw [this, List.getD_eq_getElem?_getD, List.getElem?_eq_getElem h2]
    rfl
  rw [hget]
  show (((l.drop a).take (b - a) ++ [l.getD b default] : List Actor) : Multiset Actor) = _
  rw [← Multiset.coe_add, Multiset.coe_singleton, add_comm, Multiset.singleton_add]

lemma sliceM_full (l : List Actor) : sliceM l 0 l.length = (l : Multiset Actor) := by
  unfold sliceM
  rw [List.drop_zero, Nat.sub_zero, List.take_length]

/-! ### Swap-removal and slices -/

lemma swapSlice (l2 : List Actor) (slot last : Nat)
    (h1 : slot < last) (h2 : last ≤ l2.length) :
    (l2.length = last →
      sliceM (MultiArena.swapRemoveList l2 slot).1 slot (last - 1)
        = sliceM l2 (slot + 1) last) ∧
    (last < l2.length →
      sliceM (MultiArena.swapRemoveList l2 slot).1 (slot + 1) last
        = sliceM l2 (slot + 1) last) := by
  have hsl : slot < l2.length := by omega
  constructor
  · intro hlen
    by_cases hcase : slot + 1 = last
    · rw [sliceM_empty _ _ _ (by omega), sliceM_empty _ _ _ (by omega)]
    · -- slot + 1 < last
      have hlen3 : (MultiArena.swapRemoveList l2 slot).1.length = last - 1 := by
        rw [MultiArena.swapRemoveList_length _ _ hsl, hlen]
      have hstep1 : sliceM (MultiArena.swapRemoveList l2 slot).1 slot (last - 1)
          = (l2.getD (last - 1) default) ::ₘ
            sliceM (MultiArena.swapRemoveList l2 slot).1 (slot + 1) (last - 1) := by
        rw [sliceM_cons _ _ _ (by omega) (by omega)]
        have hget : ((MultiArena.swapRemoveList l2 slot).1).getD slot default
            = l2.getD (last - 1) default := by
          rw [List.getD_eq_getElem?_getD,
            MultiArena.swapRemoveList_getElem? _ _ hsl slot,
            if_pos ⟨rfl, by omega⟩, hlen, List.getD_eq_getElem?_getD]
        rw [hget]
      have hstep2 : sliceM (MultiArena.swapRemoveList l2 slot).1 (slot + 1) (last - 1)
          = sliceM l2 (slot + 1) (last - 1) := by
        apply sliceM_congr
        intro j hj1 hj2
        rw [MultiArena.swapRemoveList_getElem? _ _ hsl j,
          if_neg (by omega), if_pos (by omega)]
      have hstep3 : sliceM l2 (slot + 1) last
          = (l2.getD (last - 1) default) ::ₘ sliceM l2 (slot + 1) (last - 1) := by
        have h9 := sliceM_snoc l2 (slot + 1) (last - 1) (by omega) (by omega)
        rw [show last - 1 + 1 = last by omega] at h9
        exact h9
      rw [hstep1, hstep2, hstep3]
  · intro hlen
    apply sliceM_congr
    intro j hj1 hj2
    rw [MultiArena.swapRemoveList_getElem? _ _ hsl j,
      if_neg (by omega), if_pos (by omega)]

/-! ### Bins only ever grow at the end, except in the traversed bin -/

lemma InstanceStore.spawn_instances (s : InstanceStore) (t : Actor) :
    (s.spawn t).instances
      = (s.instances.push (compact_behind
          { t with ident := (s.allocate_id t.ident).1 })).1 := rfl

lemma MultiArena.push_suffix (a : MultiArena) (r : Actor) (b : Nat) :
    ∃ suf, (a.push r).1.binAt b = a.binAt b ++ suf := by
  obtain ⟨c, _, hbins, _⟩ := a.push_spec r
  exact ⟨_, hbins b⟩

lemma spawn_suffix (s : InstanceStore) (t : Actor) (b : Nat) :
    ∃ suf, (s.spawn t).instances.binAt b = s.instances.binAt b ++ suf := by
  rw [InstanceStore.spawn_instances]
  exact MultiArena.push_suffix _ _ b

lemma foldl_spawn_suffix : ∀ (cs : List Actor) (s : InstanceStore) (b : Nat),
    ∃ suf, ((cs.foldl InstanceStore.spawn s).instances.binAt b)
      = s.instances.binAt b ++ suf := by
  intro cs
  induction cs with
  | nil =>
      intro s b
      exact ⟨[], by simp⟩
  | cons c rest ih =>
      intro s b
      obtain ⟨s2suf, h2⟩ := ih (s.spawn c) b
      obtain ⟨s1suf, h1⟩ := spawn_suffix s c b
      exact ⟨s1suf ++ s2suf, by rw [List.foldl_cons, h2, h1, List.append_assoc]⟩

lemma resize_at_index_suffix (s : InstanceStore) (i : SlotIndices) (b : Nat)
    (hb : b ≠ i.bin) :
    ∃ suf, (s.resize_at_index i).instances.binAt b = s.instances.binAt b ++ suf := by
  show ∃ suf, ((s.add (s.at_index_mut i)).swap_remove i).instances.binAt b = _
  rw [InstanceStore.swap_remove_instances, MultiArena.swap_remove_bins, if_neg hb,
    InstanceStore.add_instances]
  exact MultiArena.push_suffix _ _ b

lemma remove_at_index_binAt (s : InstanceStore) (i : SlotIndices) (id : RawID)
    (b : Nat) :
    (s.remove_at_index i id).instances.binAt b
      = (s.swap_remove i).instances.binAt b := rfl

lemma afterHandlerStore_eq (s : InstanceStore) (index : SlotIndices) (handler : Handler) :
    afterHandlerStore s index handler
      = (handler (s.at_index_mut index)).created.foldl InstanceStore.spawn
          { s with instances := (s.instances.setAt index
              (handler (s.at_index_mut index)).updated) } := rfl

lemma add_binAt_suffix (s : InstanceStore) (x : Actor) (b : Nat) :
    ∃ suf, (s.add x).instances.binAt b = s.instances.binAt b ++ suf := by
  rw [InstanceStore.add_instances]
  exact MultiArena.push_suffix _ _ b

lemma remove_at_index_instances (s : InstanceStore) (i : SlotIndices) (id : RawID) :
    (s.remove_at_index i id).instances = (s.swap_remove i).instances := rfl

lemma sliceM_append_of_le (l suf : List Actor) (a c : Nat) (h : c ≤ l.length) :
    sliceM (l ++ suf) a c = sliceM l a c := by
  apply sliceM_congr
  intro j hj1 hj2
  rw [List.getElem?_append_left (by omega)]

lemma sliceM_set_append (lb suf : List Actor) (u : Actor) (slot last : Nat)
    (h : last ≤ lb.length) :
    sliceM ((lb.set slot u) ++ suf) (slot + 1) last = sliceM lb (slot + 1) last := by
  apply sliceM_congr
  intro j hj1 hj2
  rw [List.getElem?_append_left (by rw [List.length_set]; omega),
    List.getElem?_set_ne (show slot ≠ j by omega)]

/-! ### One swap-removal inside the traversed bin, seen through the
pending slice [slot, index_after_last_recipient) -/

lemma swap_step_slice (t : InstanceStore) (b slot last : Nat)
    (h1 : slot < last) (h2 : last ≤ t.instances.bin_len b) :
    (∀ b', b' ≠ b → (t.swap_remove ⟨b, slot⟩).instances.binAt b'
        = t.instances.binAt b') ∧
    ((t.swap_remove ⟨b, slot⟩).instances.bin_len b < last →
        (t.swap_remove ⟨b, slot⟩).instances.bin_len b = last - 1 ∧
        sliceM ((t.swap_remove ⟨b, slot⟩).instances.binAt b) slot (last - 1)
          = sliceM (t.instances.binAt b) (slot + 1) last) ∧
    (¬ (t.swap_remove ⟨b, slot⟩).instances.bin_len b < last →
        last ≤ (t.swap_remove ⟨b, slot⟩).instances.bin_len b ∧
        sliceM ((t.swap_remove ⟨b, slot⟩).instances.binAt b) (slot + 1) last
          = sliceM (t.instances.binAt b) (slot + 1) last) := by
  have h2' : last ≤ (t.instances.binAt b).length := h2
  have hsl : slot < (t.instances.binAt b).length := by omega
  have hbinb : (t.swap_remove ⟨b, slot⟩).instances.binAt b
      = (MultiArena.swapRemoveList (t.instances.binAt b) slot).1 := by
    rw [InstanceStore.swap_remove_instances, MultiArena.swap_remove_bins, if_pos rfl]
  have hlen' : (t.swap_remove ⟨b, slot⟩).instances.bin_len b
      = (t.instances.binAt b).length - 1 := by
    show ((t.swap_remove ⟨b, slot⟩).instances.binAt b).length = _
    rw [hbinb, MultiArena.swapRemoveList_length _ _ hsl]
  refine ⟨?_, ?_, ?_⟩
  · intro b' hb'
    rw [InstanceStore.swap_remove_instances, MultiArena.swap_remove_bins, if_neg hb']
  · intro hcond
    rw [hlen'] at hcond
    have hlenlast : (t.instances.binAt b).length = last := by omega
    constructor
    · rw [hlen', hlenlast]
    · rw [hbinb]
      exact (swapSlice (t.instances.binAt b) slot last h1 h2').1 hlenlast
  · intro hcond
    rw [hlen'] at hcond
    have hlt : last < (t.instances.binAt b).length := by omega
    constructor
    · rw [hlen']
      omega
    · rw [hbinb]
      exact (swapSlice (t.instances.binAt b) slot last h1 h2').2 hlt

lemma resize_step_slice (t0 : InstanceStore) (b slot last : Nat)
    (h1 : slot < last) (h2 : last ≤ t0.instances.bin_len b) :
    (∀ b', b' ≠ b → ∃ suf, (t0.resize_at_index ⟨b, slot⟩).instances.binAt b'
        = t0.instances.binAt b' ++ suf) ∧
    ((t0.resize_at_index ⟨b, slot⟩).instances.bin_len b < last →
        (t0.resize_at_index ⟨b, slot⟩).instances.bin_len b = last - 1 ∧
        sliceM ((t0.resize_at_index ⟨b, slot⟩).instances.binAt b) slot (last - 1)
          = sliceM (t0.instances.binAt b) (slot + 1) last) ∧
    (¬ (t0.resize_at_index ⟨b, slot⟩).instances.bin_len b < last →
        last ≤ (t0.resize_at_index ⟨b, slot⟩).instances.bin_len b ∧
        sliceM ((t0.resize_at_index ⟨b, slot⟩).instances.binAt b) (slot + 1) last
          = sliceM (t0.instances.binAt b) (slot + 1) last) := by
  have hres : t0.resize_at_index ⟨b, slot⟩
      = (t0.add (t0.at_index_mut ⟨b, slot⟩)).swap_remove ⟨b, slot⟩ := rfl
  have h2'' : last ≤ (t0.instances.binAt b).length := h2
  obtain ⟨suf, hadd⟩ := add_binAt_suffix t0 (t0.at_index_mut ⟨b, slot⟩) b
  have h2' : last ≤ (t0.add (t0.at_index_mut ⟨b, slot⟩)).instances.bin_len b := by
    show last ≤ ((t0.add (t0.at_index_mut ⟨b, slot⟩)).instances.binAt b).length
    rw [hadd, List.length_append]
    omega
  have hslice_add :
      sliceM ((t0.add (t0.at_index_mut ⟨b, slot⟩)).instances.binAt b) (slot + 1) last
        = sliceM (t0.instances.binAt b) (slot + 1) last := by
    rw [hadd]
    exact sliceM_append_of_le _ _ _ _ h2''
  obtain ⟨hother, hrep, hadv⟩ :=
    swap_step_slice (t0.add (t0.at_index_mut ⟨b, slot⟩)) b slot last h1 h2'
  rw [hres]
  refine ⟨?_, ?_, ?_⟩
  · intro b' hb'
    rw [hother b' hb']
    exact add_binAt_suffix t0 _ b'
  · intro hcond
    obtain ⟨hl, hsl⟩ := hrep hcond
    exact ⟨hl, by rw [hsl, hslice_add]⟩
  · intro hcond
    obtain ⟨hl, hsl⟩ := hadv hcond
    exact ⟨hl, by rw [hsl, hslice_add]⟩

lemma remove_step_slice (t0 : InstanceStore) (id : RawID) (b slot last : Nat)
    (h1 : slot < last) (h2 : last ≤ t0.instances.bin_len b) :
    (∀ b', b' ≠ b → (t0.remove_at_index ⟨b, slot⟩ id).instances.binAt b'
        = t0.instances.binAt b') ∧
    ((t0.remove_at_index ⟨b, slot⟩ id).instances.bin_len b < last →
        (t0.remove_at_index ⟨b, slot⟩ id).instances.bin_len b = last - 1 ∧
        sliceM ((t0.remove_at_index ⟨b, slot⟩ id).instances.binAt b) slot (last - 1)
          = sliceM (t0.instances.binAt b) (slot + 1) last) ∧
    (¬ (t0.remove_at_index ⟨b, slot⟩ id).instances.bin_len b < last →
        last ≤ (t0.remove_at_index ⟨b, slot⟩ id).instances.bin_len b ∧
        sliceM ((t0.remove_at_index ⟨b, slot⟩ id).instances.binAt b) (slot + 1) last
          = sliceM (t0.instances.binAt b) (slot + 1) last) := by
  have hri : (t0.remove_at_index ⟨b, slot⟩ id).instances
      = (t0.swap_remove ⟨b, slot⟩).instances := rfl
  rw [hri]
  exact swap_step_slice t0 b slot last h1 h2

/-! ### The handler phase seen through the pending slice -/

lemma afterHandler_facts (s : InstanceStore) (b slot last : Nat) (handler : Handler)
    (h2 : last ≤ s.instances.bin_len b) :
    last ≤ (afterHandlerStore s ⟨b, slot⟩ handler).instances.bin_len b ∧
    sliceM ((afterHandlerStore s ⟨b, slot⟩ handler).instances.binAt b) (slot + 1) last
      = sliceM (s.instances.binAt b) (slot + 1) last ∧
    (∀ b', b' ≠ b → ∃ suf, (afterHandlerStore s ⟨b, slot⟩ handler).instances.binAt b'
      = s.instances.binAt b' ++ suf) := by
  have h2' : last ≤ (s.instances.binAt b).length := h2
  have hs1b : ({ s with instances := (s.instances.setAt ⟨b, slot⟩
        (handler (s.at_index_mut ⟨b, slot⟩)).updated) } : InstanceStore).instances.binAt b
      = (s.instances.binAt b).set slot (handler (s.at_index_mut ⟨b, slot⟩)).updated := by
    show (s.instances.setAt ⟨b, slot⟩ (handler (s.at_index_mut ⟨b, slot⟩)).updated).binAt b
        = _
    rw [MultiArena.setAt_binAt, if_pos rfl]
  obtain ⟨suf, hsuf⟩ := foldl_spawn_suffix (handler (s.at_index_mut ⟨b, slot⟩)).created
    { s with instances := (s.instances.setAt ⟨b, slot⟩
        (handler (s.at_index_mut ⟨b, slot⟩)).updated) } b
  have hbin : (afterHandlerStore s ⟨b, slot⟩ handler).instances.binAt b
      = ((s.instances.binAt b).set slot (handler (s.at_index_mut ⟨b, slot⟩)).updated)
          ++ suf := by
    rw [afterHandlerStore_eq, hsuf, hs1b]
  refine ⟨?_, ?_, ?_⟩
  · show last ≤ ((afterHandlerStore s ⟨b, slot⟩ handler).instances.binAt b).length
    rw [hbin, List.length_append, List.length_set]
    omega
  · rw [hbin]
    exact sliceM_set_append _ _ _ _ _ h2'
  · intro b' hb'
    have hs1b' : ({ s with instances := (s.instances.setAt ⟨b, slot⟩
          (handler (s.at_index_mut ⟨b, slot⟩)).updated) } : InstanceStore).instances.binAt b'
        = s.instances.binAt b' := by
      show (s.instances.setAt ⟨b, slot⟩
          (handler (s.at_index_mut ⟨b, slot⟩)).updated).binAt b' = _
      rw [MultiArena.setAt_binAt, if_neg hb']
    obtain ⟨suf2, hsuf2⟩ := foldl_spawn_suffix (handler (s.at_index_mut ⟨b, slot⟩)).created
      { s with instances := (s.instances.setAt ⟨b, slot⟩
          (handler (s.at_index_mut ⟨b, slot⟩)).updated) } b'
    refine ⟨suf2, ?_⟩
    rw [afterHandlerStore_eq, hsuf2, hs1b']

/-! ### Unfolding one broadcast iteration by handler outcome -/

lemma broadcast_step_eq_live_compact (handler : Handler) (b : Nat) (st : BinPassState)
    (hfate : (handler (st.store.at_index_mut ⟨b, st.slot⟩)).fate = Fate.Live)
    (hcompact :
      (handler (st.store.at_index_mut ⟨b, st.slot⟩)).updated.isStillCompact = true) :
    broadcast_step handler b st =
      { store := afterHandlerStore st.store ⟨b, st.slot⟩ handler,
        slot := st.slot + 1,
        index_after_last_recipient := st.index_after_last_recipient,
        log := st.log ++ [⟨b, st.slot, st.store.at_index_mut ⟨b, st.slot⟩⟩] } := by
  unfold broadcast_step afterHandlerStore
  simp only [hfate, hcompact, if_true]

lemma broadcast_step_eq_live_noncompact (handler : Handler) (b : Nat) (st : BinPassState)
    (hfate : (handler (st.store.at_index_mut ⟨b, st.slot⟩)).fate = Fate.Live)
    (hcompact :
      (handler (st.store.at_index_mut ⟨b, st.slot⟩)).updated.isStillCompact = false) :
    broadcast_step handler b st =
      (if ((afterHandlerStore st.store ⟨b, st.slot⟩ handler).resize_at_index
            ⟨b, st.slot⟩).instances.bin_len b < st.index_after_last_recipient then
        { store := (afterHandlerStore st.store ⟨b, st.slot⟩ handler).resize_at_index
            ⟨b, st.slot⟩,
          slot := st.slot,
          index_after_last_recipient := st.index_after_last_recipient - 1,
          log := st.log ++ [⟨b, st.slot, st.store.at_index_mut ⟨b, st.slot⟩⟩] }
      else
        { store := (afterHandlerStore st.store ⟨b, st.slot⟩ handler).resize_at_index
            ⟨b, st.slot⟩,
          slot := st.slot + 1,
          index_after_last_recipient := st.index_after_last_recipient,
          log := st.log ++ [⟨b, st.slot, st.store.at_index_mut ⟨b, st.slot⟩⟩] }) := by
  unfold broadcast_step afterHandlerStore
  simp only [hfate, hcompact, Bool.false_eq_true, if_false]

lemma broadcast_step_eq_die (handler : Handler) (b : Nat) (st : BinPassState)
    (hfate : (handler (st.store.at_index_mut ⟨b, st.slot⟩)).fate = Fate.Die) :
    broadcast_step handler b st =
      (if ((afterHandlerStore st.store ⟨b, st.slot⟩ handler).remove_at_index
            ⟨b, st.slot⟩
            (handler (st.store.at_index_mut ⟨b, st.slot⟩)).updated.ident
          ).instances.bin_len b < st.index_after_last_recipient then
        { store := (afterHandlerStore st.store ⟨b, st.slot⟩ handler).remove_at_index
            ⟨b, st.slot⟩ (handler (st.store.at_index_mut ⟨b, st.slot⟩)).updated.ident,
          slot := st.slot,
          index_after_last_recipient := st.index_after_last_recipient - 1,
          log := st.log ++ [⟨b, st.slot, st.store.at_index_mut ⟨b, st.slot⟩⟩] }
      else
        { store := (afterHandlerStore st.store ⟨b, st.slot⟩ handler).remove_at_index
            ⟨b, st.slot⟩ (handler (st.store.at_index_mut ⟨b, st.slot⟩)).updated.ident,
          slot := st.slot + 1,
          index_after_last_recipient := st.index_after_last_recipient,
          log := st.log ++ [⟨b, st.slot, st.store.at_index_mut ⟨b, st.slot⟩⟩] }) := by
  unfold broadcast_step afterHandlerStore
  simp only [hfate]

/-- One inner-loop iteration with an unvisited slot below
index_after_last_recipient: the handler is invoked on exactly the record at
the cursor; the cursor advances (or the bin shrank below the watermark, the
watermark drops by one and the slot repeats); the pending slice of the
traversed bin loses exactly the visited record; other bins only gain a
suffix. -/
lemma broadcast_step_spec (handler : Handler) (b : Nat) (st : BinPassState)
    (hs : st.slot < st.index_after_last_recipient)
    (hlen : st.index_after_last_recipient ≤ st.store.instances.bin_len b) :
    (broadcast_step handler b st).log
        = st.log ++ [⟨b, st.slot, st.store.at_index_mut ⟨b, st.slot⟩⟩] ∧
    ((broadcast_step handler b st).slot = st.slot + 1 ∧
       (broadcast_step handler b st).index_after_last_recipient
         = st.index_after_last_recipient
     ∨ (broadcast_step handler b st).slot = st.slot ∧
       (broadcast_step handler b st).index_after_last_recipient
         = st.index_after_last_recipient - 1) ∧
    (broadcast_step handler b st).index_after_last_recipient
      ≤ (broadcast_step handler b st).store.instances.bin_len b ∧
    sliceM (st.store.instances.binAt b) st.slot st.index_after_last_recipient
      = (st.store.at_index_mut ⟨b, st.slot⟩) ::ₘ
        sliceM ((broadcast_step handler b st).store.instances.binAt b)
          (broadcast_step handler b st).slot
          (broadcast_step handler b st).index_after_last_recipient ∧
    (∀ b', b' ≠ b → ∃ suf, (broadcast_step handler b st).store.instances.binAt b'
      = st.store.instances.binAt b' ++ suf) := by
  have hslotlen : st.slot < (st.store.instances.binAt b).length := by
    have h9 : st.index_after_last_recipient ≤ (st.store.instances.binAt b).length := hlen
    omega
  have hAH := afterHandler_facts st.store b st.slot st.index_after_last_recipient
    handler hlen
  rcases h_fate : (handler (st.store.at_index_mut ⟨b, st.slot⟩)).fate with _ | _
  · -- Live
    by_cases hcomp : (handler (st.store.at_index_mut ⟨b, st.slot⟩)).updated.isStillCompact
        = true
    · rw [broadcast_step_eq_live_compact handler b st h_fate hcomp]
      refine ⟨rfl, Or.inl ⟨rfl, rfl⟩, hAH.1, ?_, hAH.2.2⟩
      show sliceM (st.store.instances.binAt b) st.slot st.index_after_last_recipient
        = _ ::ₘ sliceM ((afterHandlerStore st.store ⟨b, st.slot⟩ handler).instances.binAt b)
            (st.slot + 1) st.index_after_last_recipient
      rw [hAH.2.1]
      exact sliceM_cons (st.store.instances.binAt b) st.slot
        st.index_after_last_recipient hs hslotlen
    · have hc2 : (handler (st.store.at_index_mut ⟨b, st.slot⟩)).updated.isStillCompact
          = false := Bool.eq_false_iff.mpr hcomp
      rw [broadcast_step_eq_live_noncompact handler b st h_fate hc2]
      have hRS := resize_step_slice (afterHandlerStore st.store ⟨b, st.slot⟩ handler)
        b st.slot st.index_after_last_recipient hs hAH.1
      by_cases hcond :
          ((afterHandlerStore st.store ⟨b, st.slot⟩ handler).resize_at_index
            ⟨b, st.slot⟩).instances.bin_len b < st.index_after_last_recipient
      · rw [if_pos hcond]
        obtain ⟨hl, hsl⟩ := hRS.2.1 hcond
        refine ⟨rfl, Or.inr ⟨rfl, rfl⟩, ?_, ?_, ?_⟩
        · show st.index_after_last_recipient - 1
            ≤ ((afterHandlerStore st.store ⟨b, st.slot⟩ handler).resize_at_index
                ⟨b, st.slot⟩).instances.bin_len b
          rw [hl]
        · show sliceM (st.store.instances.binAt b) st.slot st.index_after_last_recipient
            = _ ::ₘ sliceM (((afterHandlerStore st.store ⟨b, st.slot⟩ handler
                ).resize_at_index ⟨b, st.slot⟩).instances.binAt b)
                st.slot (st.index_after_last_recipient - 1)
          rw [hsl, hAH.2.1]
          exact sliceM_cons (st.store.instances.binAt b) st.slot
            st.index_after_last_recipient hs hslotlen
        · intro b' hb'
          obtain ⟨suf1, h1⟩ := hAH.2.2 b' hb'
          obtain ⟨suf2, h2⟩ := hRS.1 b' hb'
          exact ⟨suf1 ++ suf2, by
            show (((afterHandlerStore st.store ⟨b, st.slot⟩ handler
              ).resize_at_index ⟨b, st.slot⟩).instances.binAt b') = _
            rw [h2, h1, List.append_assoc]⟩
      · rw [if_neg hcond]
        obtain ⟨hl, hsl⟩ := hRS.2.2 hcond
        refine ⟨rfl, Or.inl ⟨rfl, rfl⟩, hl, ?_, ?_⟩
        · show sliceM (st.store.instances.binAt b) st.slot st.index_after_last_recipient
            = _ ::ₘ sliceM (((afterHandlerStore st.store ⟨b, st.slot⟩ handler
                ).resize_at_index ⟨b, st.slot⟩).instances.binAt b)
                (st.slot + 1) st.index_after_last_recipient
          rw [hsl, hAH.2.1]
          exact sliceM_cons (st.store.instances.binAt b) st.slot
            st.index_after_last_recipient hs hslotlen
        · intro b' hb'
          obtain ⟨suf1, h1⟩ := hAH.2.2 b' hb'
          obtain ⟨suf2, h2⟩ := hRS.1 b' hb'
          exact ⟨suf1 ++ suf2, by
            show (((afterHandlerStore st.store ⟨b, st.slot⟩ handler
              ).resize_at_index ⟨b, st.slot⟩).instances.binAt b') = _
            rw [h2, h1, List.append_assoc]⟩
  · -- Die
    rw [broadcast_step_eq_die handler b st h_fate]
    have hRM := remove_step_slice (afterHandlerStore st.store ⟨b, st.slot⟩ handler)
      (handler (st.store.at_index_mut ⟨b, st.slot⟩)).updated.ident
      b st.slot st.index_after_last_recipient hs hAH.1
    by_cases hcond :
        ((afterHandlerStore st.store ⟨b, st.slot⟩ handler).remove_at_index
          ⟨b, st.slot⟩ (handler (st.store.at_index_mut ⟨b, st.slot⟩)).updated.ident
          ).instances.bin_len b < st.index_after_last_recipient
    · rw [if_pos hcond]
      obtain ⟨hl, hsl⟩ := hRM.2.1 hcond
      refine ⟨rfl, Or.inr ⟨rfl, rfl⟩, ?_, ?_, ?_⟩
      · show st.index_after_last_recipient - 1
          ≤ ((afterHandlerStore st.store ⟨b, st.slot⟩ handler).remove_at_index
              ⟨b, st.slot⟩ (handler (st.store.at_index_mut ⟨b, st.slot⟩)).updated.ident
              ).instances.bin_len b
        rw [hl]
      · show sliceM (st.store.instances.binAt b) st.slot st.index_after_last_recipient
          = _ ::ₘ sliceM (((afterHandlerStore st.store ⟨b, st.slot⟩ handler
              ).remove_at_index ⟨b, st.slot⟩
              (handler (st.store.at_index_mut ⟨b, st.slot⟩)).updated.ident
              ).instances.binAt b) st.slot (st.index_after_last_recipient - 1)
        rw [hsl, hAH.2.1]
        exact sliceM_cons (st.store.instances.binAt b) st.slot
          st.index_after_last_recipient hs hslotlen
      · intro b' hb'
        obtain ⟨suf1, h1⟩ := hAH.2.2 b' hb'
        exact ⟨suf1, by
          show (((afterHandlerStore st.store ⟨b, st.slot⟩ handler
            ).remove_at_index ⟨b, st.slot⟩
            (handler (st.store.at_index_mut ⟨b, st.slot⟩)).updated.ident
            ).instances.binAt b') = _
          rw [hRM.1 b' hb', h1]⟩
    · rw [if_neg hcond]
      obtain ⟨hl, hsl⟩ := hRM.2.2 hcond
      refine ⟨rfl, Or.inl ⟨rfl, rfl⟩, hl, ?_, ?_⟩
      · show sliceM (st.store.instances.binAt b) st.slot st.index_after_last_recipient
          = _ ::ₘ sliceM (((afterHandlerStore st.store ⟨b, st.slot⟩ handler
              ).remove_at_index ⟨b, st.slot⟩
              (handler (st.store.at_index_mut ⟨b, st.slot⟩)).updated.ident
              ).instances.binAt b) (st.slot + 1) st.index_after_last_recipient
        rw [hsl, hAH.2.1]
        exact sliceM_cons (st.store.instances.binAt b) st.slot
          st.index_after_last_recipient hs hslotlen
      · intro b' hb'
        obtain ⟨suf1, h1⟩ := hAH.2.2 b' hb'
        exact ⟨suf1, by
          show (((afterHandlerStore st.store ⟨b, st.slot⟩ handler
            ).remove_at_index ⟨b, st.slot⟩
            (handler (st.store.at_index_mut ⟨b, st.slot⟩)).updated.ident
            ).instances.binAt b') = _
          rw [hRM.1 b' hb', h1]⟩

/-! ### The inner loop: one full pass over a snapshotted bin -/

lemma run_bin_spec (handler : Handler) (b : Nat) : ∀ (n : Nat) (st : BinPassState),
    st.slot + n = st.index_after_last_recipient →
    st.index_after_last_recipient ≤ st.store.instances.bin_len b →
    ∃ L, (run_bin handler b st n).log = st.log ++ L ∧
      ((L.map Visit.actor : List Actor) : Multiset Actor)
        = sliceM (st.store.instances.binAt b) st.slot st.index_after_last_recipient ∧
      (∀ b', b' ≠ b → ∃ suf, (run_bin handler b st n).store.instances.binAt b'
        = st.store.instances.binAt b' ++ suf) := by
  intro n
  induction n with
  | zero =>
      intro st hinv hlen
      refine ⟨[], by simp [run_bin], ?_, ?_⟩
      · rw [sliceM_empty _ _ _ (by omega)]
        rfl
      · intro b' hb'
        exact ⟨[], by simp [run_bin]⟩
  | succ n ih =>
      intro st hinv hlen
      have hs : st.slot < st.index_after_last_recipient := by omega
      obtain ⟨hlog, hdisj, hlen1, hslice, hother⟩ :=
        broadcast_step_spec handler b st hs hlen
      have hinv1 : (broadcast_step handler b st).slot + n
          = (broadcast_step handler b st).index_after_last_recipient := by
        rcases hdisj with ⟨h1, h2⟩ | ⟨h1, h2⟩ <;> omega
      obtain ⟨L1, hlog1, hm1, hoth1⟩ := ih (broadcast_step handler b st) hinv1 hlen1
      refine ⟨⟨b, st.slot, st.store.at_index_mut ⟨b, st.slot⟩⟩ :: L1, ?_, ?_, ?_⟩
      · show (run_bin handler b (broadcast_step handler b st) n).log = _
        rw [hlog1, hlog, List.append_assoc]
        rfl
      · rw [hslice, ← hm1, List.map_cons]
        exact (Multiset.cons_coe _ _).symm
      · intro b' hb'
        obtain ⟨suf1, h1⟩ := hother b' hb'
        obtain ⟨suf2, h2⟩ := hoth1 b' hb'
        refine ⟨suf1 ++ suf2, ?_⟩
        show (run_bin handler b (broadcast_step handler b st) n).store.instances.binAt b'
          = _
        rw [h2, h1, List.append_assoc]

/-! ### Summing the snapshotted bins -/

lemma receive_broadcast_eq (s : InstanceStore) (handler : Handler) :
    s.receive_broadcast handler
      = s.instances.populated_bin_indices_and_lens.foldl
          (fun acc p => ((run_bin handler p.1 ⟨acc.1, 0, p.2, acc.2⟩ p.2).store,
            (run_bin handler p.1 ⟨acc.1, 0, p.2, acc.2⟩ p.2).log)) (s, []) := rfl

lemma flatten_multiset : ∀ (L : List (List Actor)),
    ((List.range L.length).map
        (fun b => ((L.getD b [] : List Actor) : Multiset Actor))).sum
      = (L.flatten : Multiset Actor) := by
  intro L
  induction L with
  | nil => rfl
  | cons x T ih =>
      rw [List.length_cons, List.range_succ_eq_map, List.map_cons, List.map_map,
        List.sum_cons]
      have hmap : (List.range T.length).map
            ((fun b => (((x :: T).getD b [] : List Actor) : Multiset Actor)) ∘ Nat.succ)
          = (List.range T.length).map
            (fun b => ((T.getD b [] : List Actor) : Multiset Actor)) := by
        apply List.map_congr_left
        intro b _
        rfl
      rw [hmap, ih, List.getD_cons_zero, List.flatten_cons, ← Multiset.coe_add]

lemma filterMap_populated_sum (a : MultiArena) : ∀ (bs : List Nat),
    ((bs.filterMap
        (fun b => if a.bin_len b ≠ 0 then some (b, a.bin_len b) else none)).map
        (fun p => ((a.binAt p.1 : List Actor) : Multiset Actor))).sum
      = (bs.map (fun b => ((a.binAt b : List Actor) : Multiset Actor))).sum := by
  intro bs
  induction bs with
  | nil => rfl
  | cons b T ih =>
      rw [List.map_cons, List.sum_cons, ← ih]
      by_cases hz : a.bin_len b ≠ 0
      · rw [@List.filterMap_cons_some _ _
            (fun b => if a.bin_len b ≠ 0 then some (b, a.bin_len b) else none) b T
            (b, a.bin_len b) (if_pos hz),
          List.map_cons, List.sum_cons]
      · rw [@List.filterMap_cons_none _ _
            (fun b => if a.bin_len b ≠ 0 then some (b, a.bin_len b) else none) b T
            (if_neg hz)]
        have h0 : a.bin_len b = 0 := by omega
        have hnil : a.binAt b = [] := by
          have h0' : (a.binAt b).length = 0 := h0
          exact List.length_eq_zero.mp h0'
        rw [hnil]
        show _ = (0 : Multiset Actor) + _
        rw [zero_add]

lemma populated_sum_eq_flatten (a : MultiArena) :
    (a.populated_bin_indices_and_lens.map
        (fun p => ((a.binAt p.1 : List Actor) : Multiset Actor))).sum
      = (a.bins.flatten : Multiset Actor) := by
  unfold MultiArena.populated_bin_indices_and_lens
  rw [filterMap_populated_sum]
  exact flatten_multiset a.bins

lemma mem_populated (a : MultiArena) (p : Nat × Nat)
    (h : p ∈ a.populated_bin_indices_and_lens) :
    p.1 < a.bins.length ∧ a.bin_len p.1 ≠ 0 ∧ p.2 = a.bin_len p.1 := by
  unfold MultiArena.populated_bin_indices_and_lens at h
  rw [List.mem_filterMap] at h
  obtain ⟨b, hb, hfb⟩ := h
  rw [List.mem_range] at hb
  by_cases hz : a.bin_len b ≠ 0
  · rw [if_pos hz] at hfb
    have hp := Option.some.inj hfb
    rw [← hp]
    exact ⟨hb, hz, rfl⟩
  · rw [if_neg hz] at hfb
    cases hfb

lemma sublist_filterMap_fst (a : MultiArena) : ∀ (bs : List Nat),
    ((bs.filterMap
        (fun b => if a.bin_len b ≠ 0 then some (b, a.bin_len b) else none)).map
      Prod.fst).Sublist bs := by
  intro bs
  induction bs with
  | nil => simp
  | cons b T ih =>
      by_cases hz : a.bin_len b ≠ 0
      · rw [@List.filterMap_cons_some _ _
            (fun b => if a.bin_len b ≠ 0 then some (b, a.bin_len b) else none) b T
            (b, a.bin_len b) (if_pos hz),
          List.map_cons]
        exact List.Sublist.cons₂ b ih
      · rw [@List.filterMap_cons_none _ _
            (fun b => if a.bin_len b ≠ 0 then some (b, a.bin_len b) else none) b T
            (if_neg hz)]
        exact List.Sublist.cons b ih

lemma populated_fst_nodup (a : MultiArena) :
    (a.populated_bin_indices_and_lens.map Prod.fst).Nodup := by
  unfold MultiArena.populated_bin_indices_and_lens
  exact List.Nodup.sublist (sublist_filterMap_fst a (List.range a.bins.length))
    (List.nodup_range _)

/-! ### The outer loop: visiting every snapshotted bin once -/

lemma fold_bins_perm (handler : Handler) (s0 : InstanceStore) :
    ∀ (ps : List (Nat × Nat)) (cur : InstanceStore) (log0 : List Visit),
      (ps.map Prod.fst).Nodup →
      (∀ p ∈ ps, p.2 = s0.instances.bin_len p.1) →
      (∀ p ∈ ps, ∃ suf, cur.instances.binAt p.1 = s0.instances.binAt p.1 ++ suf) →
      ∃ L, (ps.foldl
          (fun acc p => ((run_bin handler p.1 ⟨acc.1, 0, p.2, acc.2⟩ p.2).store,
            (run_bin handler p.1 ⟨acc.1, 0, p.2, acc.2⟩ p.2).log)) (cur, log0)).2
          = log0 ++ L ∧
        ((L.map Visit.actor : List Actor) : Multiset Actor)
          = (ps.map (fun p => ((s0.instances.binAt p.1 : List Actor)
              : Multiset Actor))).sum := by
  intro ps
  induction ps with
  | nil =>
      intro cur log0 _ _ _
      exact ⟨[], by simp, rfl⟩
  | cons p T ih =>
      intro cur log0 hnd hlen hpre
      have hplen : p.2 = s0.instances.bin_len p.1 := hlen p (by simp)
      have hplen' : p.2 = (s0.instances.binAt p.1).length := hplen
      obtain ⟨suf0, hsuf0⟩ := hpre p (by simp)
      have hlenc : p.2 ≤ cur.instances.bin_len p.1 := by
        show p.2 ≤ (cur.instances.binAt p.1).length
        rw [hsuf0, List.length_append]
        omega
      obtain ⟨L1, hlog1, hm1, hoth1⟩ := run_bin_spec handler p.1 p.2
        ⟨cur, 0, p.2, log0⟩ (show 0 + p.2 = p.2 by omega) hlenc
      have hm1' : ((L1.map Visit.actor : List Actor) : Multiset Actor)
          = ((s0.instances.binAt p.1 : List Actor) : Multiset Actor) := by
        rw [hm1]
        show sliceM (cur.instances.binAt p.1) 0 p.2 = _
        rw [hsuf0, sliceM_append_of_le _ _ _ _ (le_of_eq hplen'), hplen']
        exact sliceM_full _
      have hnd' : (T.map Prod.fst).Nodup := (List.nodup_cons.mp hnd).2
      have hmemfst : p.1 ∉ T.map Prod.fst := (List.nodup_cons.mp hnd).1
      have hfst : ∀ q ∈ T, q.1 ≠ p.1 := by
        intro q hq heq
        exact hmemfst (heq ▸ List.mem_map_of_mem Prod.fst hq)
      have hpre' : ∀ q ∈ T, ∃ suf,
          (run_bin handler p.1 ⟨cur, 0, p.2, log0⟩ p.2).store.instances.binAt q.1
            = s0.instances.binAt q.1 ++ suf := by
        intro q hq
        obtain ⟨sufq, hq1⟩ := hpre q (List.mem_cons_of_mem _ hq)
        obtain ⟨sufq2, hq2⟩ := hoth1 q.1 (hfst q hq)
        exact ⟨sufq ++ sufq2, by rw [hq2, hq1, List.append_assoc]⟩
      have hlen' : ∀ q ∈ T, q.2 = s0.instances.bin_len q.1 :=
        fun q hq => hlen q (List.mem_cons_of_mem _ hq)
      obtain ⟨L2, hlog2, hm2⟩ := ih (run_bin handler p.1 ⟨cur, 0, p.2, log0⟩ p.2).store
        (run_bin handler p.1 ⟨cur, 0, p.2, log0⟩ p.2).log hnd' hlen' hpre'
      refine ⟨L1 ++ L2, ?_, ?_⟩
      · show (T.foldl
            (fun acc p => ((run_bin handler p.1 ⟨acc.1, 0, p.2, acc.2⟩ p.2).store,
              (run_bin handler p.1 ⟨acc.1, 0, p.2, acc.2⟩ p.2).log))
            ((run_bin handler p.1 ⟨cur, 0, p.2, log0⟩ p.2).store,
              (run_bin handler p.1 ⟨cur, 0, p.2, log0⟩ p.2).log)).2
          = log0 ++ (L1 ++ L2)
        rw [hlog2, hlog1, List.append_assoc]
      · rw [List.map_cons, List.sum_cons, List.map_append, ← Multiset.coe_add, hm1', hm2]

/-! ### Claim C2 -/

/-- C2: a broadcast invokes the handler exactly once on each record present
when it started (the visited records, with multiplicity, are exactly the
records the arena held at call time) and never on records the handlers
created during the pass.  In this model a handler can only decide its own
record's fate and create new instances, so the spec's precondition — no
instance created during the pass is destroyed within it — holds
automatically and the statement is unconditional. -/
theorem claim_C2 : ∀ (s : InstanceStore) (handler : Handler),
    (((s.receive_broadcast handler).2.map Visit.actor : List Actor) : Multiset Actor)
      = (s.instances.bins.flatten : Multiset Actor) := by
  intro s handler
  rw [receive_broadcast_eq]
  obtain ⟨L, hlog, hm⟩ := fold_bins_perm handler s
    s.instances.populated_bin_indices_and_lens s []
    (populated_fst_nodup s.instances)
    (fun p hp => (mem_populated s.instances p hp).2.2)
    (fun p _ => ⟨[], (List.append_nil _).symm⟩)
  rw [hlog, List.nil_append, hm, populated_sum_eq_flatten]

/-! ### The all-alive-and-compact broadcast: visits in slot order -/

lemma afterHandler_bin_eq (s : InstanceStore) (b slot : Nat) (handler : Handler) :
    ∃ suf, (afterHandlerStore s ⟨b, slot⟩ handler).instances.binAt b
      = ((s.instances.binAt b).set slot
          (handler (s.at_index_mut ⟨b, slot⟩)).updated) ++ suf := by
  have hs1b : ({ s with instances := (s.instances.setAt ⟨b, slot⟩
        (handler (s.at_index_mut ⟨b, slot⟩)).updated) } : InstanceStore).instances.binAt b
      = (s.instances.binAt b).set slot (handler (s.at_index_mut ⟨b, slot⟩)).updated := by
    show (s.instances.setAt ⟨b, slot⟩ (handler (s.at_index_mut ⟨b, slot⟩)).updated).binAt b
        = _
    rw [MultiArena.setAt_binAt, if_pos rfl]
  obtain ⟨suf, hsuf⟩ := foldl_spawn_suffix (handler (s.at_index_mut ⟨b, slot⟩)).created
    { s with instances := (s.instances.setAt ⟨b, slot⟩
        (handler (s.at_index_mut ⟨b, slot⟩)).updated) } b
  refine ⟨suf, ?_⟩
  rw [afterHandlerStore_eq, hsuf, hs1b]

lemma run_bin_ordered (handler : Handler)
    (hH : ∀ r, (handler r).fate = Fate.Live ∧ ((handler r).updated).isStillCompact = true)
    (b : Nat) (orig : List Actor) : ∀ (n : Nat) (st : BinPassState),
    (∀ j, st.slot ≤ j → j < st.index_after_last_recipient →
        (st.store.instances.binAt b)[j]? = orig[j]?) →
    st.slot + n = st.index_after_last_recipient →
    st.index_after_last_recipient ≤ st.store.instances.bin_len b →
    (run_bin handler b st n).log = st.log ++
        (List.range n).map
          (fun k => Visit.mk b (st.slot + k) (orig.getD (st.slot + k) default)) ∧
      (∀ b', b' ≠ b → ∃ suf, (run_bin handler b st n).store.instances.binAt b'
        = st.store.instances.binAt b' ++ suf) := by
  intro n
  induction n with
  | zero =>
      intro st horig hinv hlen
      exact ⟨by simp [run_bin], fun b' hb' => ⟨[], by simp [run_bin]⟩⟩
  | succ n ih =>
      intro st horig hinv hlen
      have hlen' : st.index_after_last_recipient ≤ (st.store.instances.binAt b).length :=
        hlen
      have hs : st.slot < st.index_after_last_recipient := by omega
      have hfate := (hH (st.store.at_index_mut ⟨b, st.slot⟩)).1
      have hcomp := (hH (st.store.at_index_mut ⟨b, st.slot⟩)).2
      have hstep := broadcast_step_eq_live_compact handler b st hfate hcomp
      have hAH := afterHandler_facts st.store b st.slot st.index_after_last_recipient
        handler hlen
      obtain ⟨suf, hbin⟩ := afterHandler_bin_eq st.store b st.slot handler
      have hact : st.store.at_index_mut ⟨b, st.slot⟩ = orig.getD st.slot default := by
        show (st.store.instances.binAt b).getD st.slot default = _
        rw [List.getD_eq_getElem?_getD, horig st.slot le_rfl hs,
          ← List.getD_eq_getElem?_getD]
      have horig1 : ∀ j, st.slot + 1 ≤ j → j < st.index_after_last_recipient →
          ((afterHandlerStore st.store ⟨b, st.slot⟩ handler).instances.binAt b)[j]?
            = orig[j]? := by
        intro j hj1 hj2
        rw [hbin, List.getElem?_append_left (by rw [List.length_set]; omega),
          List.getElem?_set_ne (show st.slot ≠ j by omega)]
        exact horig j (by omega) hj2
      obtain ⟨ihlog, ihoth⟩ := ih
        { store := afterHandlerStore st.store ⟨b, st.slot⟩ handler,
          slot := st.slot + 1,
          index_after_last_recipient := st.index_after_last_recipient,
          log := st.log ++ [⟨b, st.slot, st.store.at_index_mut ⟨b, st.slot⟩⟩] }
        horig1 (by show st.slot + 1 + n = st.index_after_last_recipient; omega) hAH.1
      have hmap : (List.range n).map
            ((fun k => Visit.mk b (st.slot + k) (orig.getD (st.slot + k) default))
              ∘ Nat.succ)
          = (List.range n).map
            (fun k => Visit.mk b (st.slot + 1 + k) (orig.getD (st.slot + 1 + k) default))
          := by
        apply List.map_congr_left
        intro k _
        show Visit.mk b (st.slot + (k + 1)) (orig.getD (st.slot + (k + 1)) default)
          = Visit.mk b (st.slot + 1 + k) (orig.getD (st.slot + 1 + k) default)
        rw [show st.slot + (k + 1) = st.slot + 1 + k by omega]
      constructor
      · show (run_bin handler b (broadcast_step handler b st) n).log = _
        rw [hstep, ihlog, hact, List.range_succ_eq_map, List.map_cons, List.map_map,
          hmap, List.append_assoc]
        rfl
      · intro b' hb'
        obtain ⟨suf1, h1⟩ := hAH.2.2 b' hb'
        obtain ⟨suf2, h2⟩ := ihoth b' hb'
        refine ⟨suf1 ++ suf2, ?_⟩
        show (run_bin handler b (broadcast_step handler b st) n).store.instances.binAt b'
          = _
        rw [hstep, h2, h1, List.append_assoc]

lemma fold_bins_ordered (handler : Handler)
    (hH : ∀ r, (handler r).fate = Fate.Live ∧ ((handler r).updated).isStillCompact = true)
    (s0 : InstanceStore) :
    ∀ (ps : List (Nat × Nat)) (cur : InstanceStore) (log0 : List Visit),
      (ps.map Prod.fst).Nodup →
      (∀ p ∈ ps, p.2 = s0.instances.bin_len p.1) →
      (∀ p ∈ ps, ∃ suf, cur.instances.binAt p.1 = s0.instances.binAt p.1 ++ suf) →
      (ps.foldl
          (fun acc p => ((run_bin handler p.1 ⟨acc.1, 0, p.2, acc.2⟩ p.2).store,
            (run_bin handler p.1 ⟨acc.1, 0, p.2, acc.2⟩ p.2).log)) (cur, log0)).2
        = log0 ++ (ps.map (fun p => (List.range p.2).map
            (fun j => Visit.mk p.1 j ((s0.instances.binAt p.1).getD j default)))).flatten
    := by
  intro ps
  induction ps with
  | nil =>
      intro cur log0 _ _ _
      simp
  | cons p T ih =>
      intro cur log0 hnd hlen hpre
      have hplen : p.2 = s0.instances.bin_len p.1 := hlen p (by simp)
      have hplen' : p.2 = (s0.instances.binAt p.1).length := hplen
      obtain ⟨suf0, hsuf0⟩ := hpre p (by simp)
      have hlenc : p.2 ≤ cur.instances.bin_len p.1 := by
        show p.2 ≤ (cur.instances.binAt p.1).length
        rw [hsuf0, List.length_append]
        omega
      have horig : ∀ j, (0 : Nat) ≤ j → j < p.2 →
          (cur.instances.binAt p.1)[j]? = (s0.instances.binAt p.1)[j]? := by
        intro j _ hj2
        rw [hsuf0, List.getElem?_append_left (by omega)]
      obtain ⟨ihlog, ihoth⟩ := run_bin_ordered handler hH p.1 (s0.instances.binAt p.1)
        p.2 ⟨cur, 0, p.2, log0⟩ horig (show 0 + p.2 = p.2 by omega) hlenc
      have hmap0 : (List.range p.2).map
            (fun k => Visit.mk p.1 (0 + k) ((s0.instances.binAt p.1).getD (0 + k) default))
          = (List.range p.2).map
            (fun j => Visit.mk p.1 j ((s0.instances.binAt p.1).getD j default)) := by
        apply List.map_congr_left
        intro k _
        rw [show 0 + k = k by omega]
      have hnd' : (T.map Prod.fst).Nodup := (List.nodup_cons.mp hnd).2
      have hmemfst : p.1 ∉ T.map Prod.fst := (List.nodup_cons.mp hnd).1
      have hfst : ∀ q ∈ T, q.1 ≠ p.1 := by
        intro q hq heq
        exact hmemfst (heq ▸ List.mem_map_of_mem Prod.fst hq)
      have hpre' : ∀ q ∈ T, ∃ suf,
          (run_bin handler p.1 ⟨cur, 0, p.2, log0⟩ p.2).store.instances.binAt q.1
            = s0.instances.binAt q.1 ++ suf := by
        intro q hq
        obtain ⟨sufq, hq1⟩ := hpre q (List.mem_cons_of_mem _ hq)
        obtain ⟨sufq2, hq2⟩ := ihoth q.1 (hfst q hq)
        exact ⟨sufq ++ sufq2, by rw [hq2, hq1, List.append_assoc]⟩
      have hlen' : ∀ q ∈ T, q.2 = s0.instances.bin_len q.1 :=
        fun q hq => hlen q (List.mem_cons_of_mem _ hq)
      have hrest := ih (run_bin handler p.1 ⟨cur, 0, p.2, log0⟩ p.2).store
        (run_bin handler p.1 ⟨cur, 0, p.2, log0⟩ p.2).log hnd' hlen' hpre'
      show (T.foldl
          (fun acc p => ((run_bin handler p.1 ⟨acc.1, 0, p.2, acc.2⟩ p.2).store,
            (run_bin handler p.1 ⟨acc.1, 0, p.2, acc.2⟩ p.2).log))
          ((run_bin handler p.1 ⟨cur, 0, p.2, log0⟩ p.2).store,
            (run_bin handler p.1 ⟨cur, 0, p.2, log0⟩ p.2).log)).2
        = _
      rw [hrest, ihlog, hmap0, List.map_cons, List.flatten_cons, List.append_assoc]

/-! ### Claim C4 -/

/-- C4: when every handler invocation reports alive and leaves its record
self-contained, a broadcast produces exactly the expected visit log: for
each snapshotted bin, its records at pass start in increasing physical slot
order, each visited once. -/
theorem claim_C4 : ∀ (s : InstanceStore) (handler : Handler),
    (∀ r, (handler r).fate = Fate.Live ∧ ((handler r).updated).isStillCompact = true) →
    (s.receive_broadcast handler).2 = expectedVisits s := by
  intro s handler hH
  rw [receive_broadcast_eq]
  rw [fold_bins_ordered handler hH s s.instances.populated_bin_indices_and_lens s []
    (populated_fst_nodup _) (fun p hp => (mem_populated _ p hp).2.2)
    (fun p _ => ⟨[], (List.append_nil _).symm⟩)]
  rw [List.nil_append]
  rfl

/-- Witness for C4: the always-alive-and-compact handler on the concrete
three-instance store produces exactly the slot-ordered visit log
A@(0,0), B@(0,1), C@(0,2). -/
theorem claim_C4_witness :
    (storeABC.receive_broadcast handlerC4).2 = expectedVisits storeABC ∧
    expectedVisits storeABC
      = [⟨0, 0, actorA⟩, ⟨0, 1, actorB⟩, ⟨0, 2, actorC⟩] :=
  ⟨claim_C4 storeABC handlerC4 (fun r => ⟨rfl, rfl⟩), by decide⟩

end Kay
